import Mathlib

/-!
Verification development for the smart-converter backend
(`src/server.js` and its earlier snapshot `src/unnamed/part_000`).

The embedding models the request validation, metering and streaming
AI-orchestration pipeline: JS request values, the bcrypt-backed
credential lookup, the plan/model access policy, the usage limiter,
the multi-key DeepSeek failover dispatcher, the JSON response
extractor, and the SSE event traces of the three streaming route
handlers.  Strings are modelled at the character level (ASCII inputs);
JS numbers appearing in inspected request fields are modelled as
integers (NaN does not arise in the claims considered).
-/

/-! ## JavaScript request values

Request bodies are JSON documents, so the values the handlers inspect
are modelled by a small JS value type with enough structure for the
truthiness and typeof tests the code performs.  Arrays keep only their
length (the handlers only test Array.isArray and .length). -/

inductive JVal where
  | undefinedV
  | jnull
  | jbool (b : Bool)
  | jnum (n : Int)
  | jstr (s : String)
  | jobj
  | jarrLen (n : Nat)
deriving DecidableEq, Repr

/-- Truthiness of a JS value (`!v` in the source is `¬ truthy v`). -/
def truthy : JVal → Bool
  | .undefinedV => false
  | .jnull => false
  | .jbool b => b
  | .jnum n => n != 0
  | .jstr s => s != ""
  | .jobj => true
  | .jarrLen _ => true

/-- Test for `typeof v === 'string'`. -/
def isStringV : JVal → Bool
  | .jstr _ => true
  | _ => false

/-- Test for `typeof v === 'object'` (null and arrays included, as in JS). -/
def typeofObject : JVal → Bool
  | .jobj => true
  | .jarrLen _ => true
  | .jnull => true
  | _ => false

/-- Test for `Array.isArray(v)`. -/
def isArrV : JVal → Bool
  | .jarrLen _ => true
  | _ => false

/-- Length of an array value (0 for non-arrays; only used after isArrV). -/
def arrLenV : JVal → Nat
  | .jarrLen n => n
  | _ => 0

/-! ## Character-level string helpers

The regex and trim operations of the source are modelled directly on
`List Char`.  Whitespace is the ASCII part of the JS `\s` class. -/

/-- ASCII whitespace as matched by the JS regex class `\s` and `String.trim`. -/
def isJsWS (c : Char) : Bool :=
  c = ' ' || c = '\t' || c = '\n' || c = '\r' || c = '\x0b' || c = '\x0c'

/-- Model of the JS `String.prototype.trim` on character lists. -/
def trimChars (cs : List Char) : List Char :=
  ((cs.dropWhile isJsWS).reverse.dropWhile isJsWS).reverse

/-- Model of the JS `String.prototype.trim`. -/
def trimStr (s : String) : String :=
  String.mk (trimChars s.data)

/-- Index of the first occurrence of `needle` in `hay`, if any. -/
def findSub (needle : List Char) : List Char → Option Nat
  | [] => if needle = [] then some 0 else none
  | c :: tl =>
    if needle.isPrefixOf (c :: tl) then some 0
    else (findSub needle tl).map (· + 1)

/-- Whether `needle` occurs somewhere in `hay`. -/
def containsSub (hay needle : List Char) : Bool :=
  (findSub needle hay).isSome

/-- Index of the first occurrence of a character, if any. -/
def firstIdx (c : Char) (cs : List Char) : Option Nat :=
  findSub [c] cs

/-- Index of the last occurrence of a character, if any. -/
def lastIdx (c : Char) (cs : List Char) : Option Nat :=
  (findSub [c] cs.reverse).map (fun i => cs.length - 1 - i)

/-- ASCII lower-casing of one character (JS `toLowerCase` on ASCII input). -/
def asciiLower (c : Char) : Char :=
  if 'A' ≤ c ∧ c ≤ 'Z' then Char.ofNat (c.toNat + 32) else c

/-- ASCII lower-casing of a string. -/
def lowerStr (s : String) : String :=
  String.mk (s.data.map asciiLower)

/-! ## JSON documents

The extractor feeds candidate spans to `JSON.parse`; its output is
modelled by the `Json` type below.  Number literals keep their lexeme
(the concrete claims only distinguish numbers by their source text).
Object fields keep JS insertion-order semantics: a duplicate key
overwrites the value at its first position. -/

inductive Json where
  | null
  | bool (b : Bool)
  | num (lit : String)
  | str (s : String)
  | arr (elems : List Json)
  | obj (fields : List (String × Json))

/-- Value of a key in a parsed object (first binding, as produced by the
parser which already collapses duplicates the way JS object assignment does). -/
def lookupKey (k : String) : List (String × Json) → Option Json
  | [] => none
  | (k', v) :: rest => if k' = k then some v else lookupKey k rest

/-- Assignment `o[k] = v` on a JS object: overwrite in place if the key
exists, otherwise append the new binding. -/
def setKey (k : String) (v : Json) : List (String × Json) → List (String × Json)
  | [] => [(k, v)]
  | (k', v') :: rest => if k' = k then (k, v) :: rest else (k', v') :: setKey k v rest

/-- Whether a JSON number lexeme denotes zero (all mantissa digits 0). -/
def numLitIsZero (lit : String) : Bool :=
  (lit.data.takeWhile (fun c => c ≠ 'e' ∧ c ≠ 'E')).all
    (fun c => c = '0' || c = '-' || c = '.')

/-- JS truthiness of a parsed JSON value. -/
def truthyJson : Json → Bool
  | .null => false
  | .bool b => b
  | .num lit => !(numLitIsZero lit)
  | .str s => s != ""
  | .arr _ => true
  | .obj _ => true

/-- Test for `Array.isArray` on a parsed JSON value. -/
def isArrJson : Json → Bool
  | .arr _ => true
  | _ => false

/-! ## A strict JSON parser (model of `JSON.parse`)

Fuel-based recursive-descent parser for the JSON grammar accepted by
`JSON.parse`: every descent consumes at least one character before
recursing, so fuel `length + 1` always suffices.  Error messages are
fixed model strings (`JSON.parse` messages are engine specific; no
claim depends on their wording). -/

/-- JSON insignificant whitespace (space, tab, line feed, carriage return). -/
def isJsonWS (c : Char) : Bool :=
  c = ' ' || c = '\t' || c = '\n' || c = '\r'

/-- Skip JSON whitespace. -/
def skipWs (cs : List Char) : List Char :=
  cs.dropWhile isJsonWS

/-- Hexadecimal digit value, if the character is one. -/
def hexVal (c : Char) : Option Nat :=
  if '0' ≤ c ∧ c ≤ '9' then some (c.toNat - '0'.toNat)
  else if 'a' ≤ c ∧ c ≤ 'f' then some (c.toNat - 'a'.toNat + 10)
  else if 'A' ≤ c ∧ c ≤ 'F' then some (c.toNat - 'A'.toNat + 10)
  else none

/-- Decimal digit test. -/
def isDigitCh (c : Char) : Bool :=
  '0' ≤ c ∧ c ≤ '9'

/-- Translation of a simple (single-character) JSON string escape. -/
def simpleEscape (e : Char) : Option Char :=
  if e = '"' then some '"'
  else if e = '\\' then some '\\'
  else if e = '/' then some '/'
  else if e = 'b' then some '\x08'
  else if e = 'f' then some '\x0c'
  else if e = 'n' then some '\n'
  else if e = 'r' then some '\r'
  else if e = 't' then some '\t'
  else none

/-- Parse the body of a JSON string literal (opening quote already
consumed), returning the decoded text and the rest.  Escapes follow the
JSON grammar; a `\uXXXX` escape decodes to the corresponding code point
(surrogate pairing is not modelled; no claim exercises it).  The fuel
argument only discharges termination: any fuel at least the input
length behaves identically. -/
def parseStringBody : Nat → List Char → Except String (String × List Char)
  | 0, _ => .error "Unterminated string in JSON"
  | _, [] => .error "Unterminated string in JSON"
  | fuel + 1, c :: tl =>
    if c = '"' then .ok ("", tl)
    else if c = '\\' then
      match tl with
      | [] => .error "Unterminated escape in JSON"
      | 'u' :: h1 :: h2 :: h3 :: h4 :: tl3 =>
        match hexVal h1, hexVal h2, hexVal h3, hexVal h4 with
        | some a, some b, some c3, some d =>
          match parseStringBody fuel tl3 with
          | .error m => .error m
          | .ok (s, rest2) =>
            .ok (String.mk (Char.ofNat (((a * 16 + b) * 16 + c3) * 16 + d) :: s.data), rest2)
        | _, _, _, _ => .error "Bad unicode escape in JSON"
      | 'u' :: _ => .error "Bad unicode escape in JSON"
      | e :: tl2 =>
        match simpleEscape e with
        | some ch =>
          match parseStringBody fuel tl2 with
          | .error m => .error m
          | .ok (s, rest2) => .ok (String.mk (ch :: s.data), rest2)
        | none => .error "Bad escape in JSON"
    else if c.toNat < 32 then .error "Control character in JSON string"
    else
      match parseStringBody fuel tl with
      | .error m => .error m
      | .ok (s, rest2) => .ok (String.mk (c :: s.data), rest2)

/-- Parse a JSON string literal whose opening quote has been consumed,
with fuel derived from the input length. -/
def parseStringLit (cs : List Char) : Except String (String × List Char) :=
  parseStringBody (cs.length + 1) cs

/-- Parse a JSON number lexeme at the head of the input, returning the
lexeme and the rest.  Grammar as accepted by `JSON.parse`:
`-? (0 | [1-9][0-9]*) (. [0-9]+)? ([eE][+-]?[0-9]+)?`. -/
def parseNumberLexeme (cs : List Char) : Except String (String × List Char) :=
  let (sign, cs1) :=
    match cs with
    | '-' :: tl => (['-'], tl)
    | _ => (([] : List Char), cs)
  match cs1 with
  | [] => .error "Bad number in JSON"
  | d :: _ =>
    if !(isDigitCh d) then .error "Bad number in JSON"
    else
      let (intPart, cs2) :=
        if d = '0' then ([d], cs1.drop 1)
        else (cs1.takeWhile isDigitCh, cs1.dropWhile isDigitCh)
      let (fracPart, cs3) :=
        match cs2 with
        | '.' :: tl =>
          let ds := tl.takeWhile isDigitCh
          if ds = [] then (([] : List Char), ('.' :: tl))
          else ('.' :: ds, tl.dropWhile isDigitCh)
        | _ => (([] : List Char), cs2)
      let fracBad : Bool :=
        match cs2 with
        | '.' :: tl => (tl.takeWhile isDigitCh) = []
        | _ => false
      if fracBad then .error "Bad number in JSON"
      else
        let (expPart, cs4) :=
          match cs3 with
          | e :: tl =>
            if e = 'e' ∨ e = 'E' then
              let (esign, tl2) :=
                match tl with
                | '+' :: t => (['+'], t)
                | '-' :: t => (['-'], t)
                | _ => (([] : List Char), tl)
              let ds := tl2.takeWhile isDigitCh
              if ds = [] then (none, cs3)
              else (some (e :: (esign ++ ds)), tl2.dropWhile isDigitCh)
            else (none, cs3)
          | [] => (none, cs3)
        let expBad : Bool :=
          match cs3 with
          | e :: tl =>
            if e = 'e' ∨ e = 'E' then
              (match tl with
               | '+' :: t => t.takeWhile isDigitCh = []
               | '-' :: t => t.takeWhile isDigitCh = []
               | _ => tl.takeWhile isDigitCh = [])
            else false
          | [] => false
        if expBad then .error "Bad number in JSON"
        else
          .ok (String.mk (sign ++ intPart ++ fracPart ++ (expPart.getD [])), cs4)

mutual

/-- Parse one JSON value after skipping leading whitespace. -/
def parseValue (fuel : Nat) (cs : List Char) : Except String (Json × List Char) :=
  match fuel with
  | 0 => .error "JSON nesting too deep"
  | fuel + 1 =>
    match skipWs cs with
    | [] => .error "Unexpected end of JSON input"
    | c :: tl =>
      if c = '{' then parseObjectFields fuel tl []
      else if c = '[' then parseArrayElems fuel tl []
      else if c = '"' then
        match parseStringLit tl with
        | .error m => .error m
        | .ok (s, rest) => .ok (.str s, rest)
      else if c = 't' then
        if ['r', 'u', 'e'].isPrefixOf tl then .ok (.bool true, tl.drop 3)
        else .error "Unexpected token in JSON"
      else if c = 'f' then
        if ['a', 'l', 's', 'e'].isPrefixOf tl then .ok (.bool false, tl.drop 4)
        else .error "Unexpected token in JSON"
      else if c = 'n' then
        if ['u', 'l', 'l'].isPrefixOf tl then .ok (.null, tl.drop 3)
        else .error "Unexpected token in JSON"
      else if c = '-' ∨ isDigitCh c then
        match parseNumberLexeme (c :: tl) with
        | .error m => .error m
        | .ok (lit, rest) => .ok (.num lit, rest)
      else .error "Unexpected token in JSON"

/-- Parse the fields of an object, `{` already consumed.  `acc` holds
the bindings collected so far; duplicates overwrite in place as JS
object assignment does. -/
def parseObjectFields (fuel : Nat) (cs : List Char) (acc : List (String × Json)) :
    Except String (Json × List Char) :=
  match fuel with
  | 0 => .error "JSON nesting too deep"
  | fuel + 1 =>
    match skipWs cs with
    | [] => .error "Unexpected end of JSON input"
    | c :: tl =>
      if c = '}' then
        if acc.isEmpty then .ok (.obj [], tl) else .error "Unexpected token in JSON"
      else if c = '"' then
        match parseStringLit tl with
        | .error m => .error m
        | .ok (k, rest) =>
          match skipWs rest with
          | ':' :: rest2 =>
            match parseValue fuel rest2 with
            | .error m => .error m
            | .ok (v, rest3) =>
              let acc2 := setKey k v acc
              match skipWs rest3 with
              | ',' :: rest4 => parseObjectFieldsMore fuel rest4 acc2
              | '}' :: rest4 => .ok (.obj acc2, rest4)
              | _ => .error "Expected comma or closing brace in JSON object"
          | _ => .error "Expected colon in JSON object"
      else .error "Expected string key in JSON object"

/-- Parse the fields of an object after a comma (a key must follow). -/
def parseObjectFieldsMore (fuel : Nat) (cs : List Char) (acc : List (String × Json)) :
    Except String (Json × List Char) :=
  match fuel with
  | 0 => .error "JSON nesting too deep"
  | fuel + 1 =>
    match skipWs cs with
    | [] => .error "Unexpected end of JSON input"
    | c :: tl =>
      if c = '"' then
        match parseStringLit tl with
        | .error m => .error m
        | .ok (k, rest) =>
          match skipWs rest with
          | ':' :: rest2 =>
            match parseValue fuel rest2 with
            | .error m => .error m
            | .ok (v, rest3) =>
              let acc2 := setKey k v acc
              match skipWs rest3 with
              | ',' :: rest4 => parseObjectFieldsMore fuel rest4 acc2
              | '}' :: rest4 => .ok (.obj acc2, rest4)
              | _ => .error "Expected comma or closing brace in JSON object"
          | _ => .error "Expected colon in JSON object"
      else .error "Expected string key in JSON object"

/-- Parse the elements of an array, `[` already consumed. -/
def parseArrayElems (fuel : Nat) (cs : List Char) (acc : List Json) :
    Except String (Json × List Char) :=
  match fuel with
  | 0 => .error "JSON nesting too deep"
  | fuel + 1 =>
    match skipWs cs with
    | [] => .error "Unexpected end of JSON input"
    | c :: tl =>
      if c = ']' then
        if acc.isEmpty then .ok (.arr [], tl) else .error "Unexpected token in JSON"
      else
        match parseValue fuel cs with
        | .error m => .error m
        | .ok (v, rest) =>
          let acc2 := acc ++ [v]
          match skipWs rest with
          | ',' :: rest2 => parseArrayElemsMore fuel rest2 acc2
          | ']' :: rest2 => .ok (.arr acc2, rest2)
          | _ => .error "Expected comma or closing bracket in JSON array"

/-- Parse the elements of an array after a comma (a value must follow). -/
def parseArrayElemsMore (fuel : Nat) (cs : List Char) (acc : List Json) :
    Except String (Json × List Char) :=
  match fuel with
  | 0 => .error "JSON nesting too deep"
  | fuel + 1 =>
    match skipWs cs with
    | [] => .error "Unexpected end of JSON input"
    | c :: _ =>
      if c = ']' then .error "Unexpected token in JSON"
      else
        match parseValue fuel cs with
        | .error m => .error m
        | .ok (v, rest) =>
          let acc2 := acc ++ [v]
          match skipWs rest with
          | ',' :: rest2 => parseArrayElemsMore fuel rest2 acc2
          | ']' :: rest2 => .ok (.arr acc2, rest2)
          | _ => .error "Expected comma or closing bracket in JSON array"

end

/-- Model of `JSON.parse`: the whole input must be a single JSON value
surrounded only by whitespace. -/
def parseJson (cs : List Char) : Except String Json :=
  match parseValue (cs.length + 1) cs with
  | .error m => .error m
  | .ok (j, rest) =>
    if skipWs rest = [] then .ok j
    else .error "Unexpected non-whitespace character after JSON data"

/-! ## Response extractor (`parseAIResponse`, src/server.js lines 799-850)

The three extraction strategies and the fallback repair pass are
modelled on character lists.  An empty list plays the role of the empty
(falsy) `jsonContent` string in the source. -/

/-- Strategy 1, the regex `/```json\s*([\s\S]*?)\s*```/`: interior of
the first fenced block explicitly labelled json, trimmed.  The lazy
group makes the closing fence the first one after the label; returns []
when there is no match (or the capture trims to nothing). -/
def strategyCodeBlock (cs : List Char) : List Char :=
  match findSub "```json".data cs with
  | none => []
  | some i =>
    let after := cs.drop (i + 7)
    match findSub "```".data after with
    | none => []
    | some j => trimChars (after.take j)

/-- Strategy 2, the regex `/\{[\s\S]*\}/`: the span from the first
opening brace to the last closing brace, when the latter comes later. -/
def strategyBraceSpan (cs : List Char) : List Char :=
  match firstIdx '{' cs, lastIdx '}' cs with
  | some i, some j => if i < j then (cs.drop i).take (j - i + 1) else []
  | _, _ => []

/-- Model of `replace(/^[\s\S]*?(?=\{)/, '')` (and of the fallback
variant `/^[\s\S]*?(\{)/` with `$1`): drop everything strictly before
the first opening brace; without one the string is unchanged. -/
def dropBeforeFirst (c : Char) (cs : List Char) : List Char :=
  match firstIdx c cs with
  | some i => cs.drop i
  | none => cs

/-- Model of `replace(/\}[\s\S]*$/, '}')` (and of `/(\})[\s\S]*$/`
with `$1`): the leftmost match of either regex starts at the first
closing brace, so the string is truncated right after the first closing
brace if one exists. -/
def truncateAfterFirst (c : Char) (cs : List Char) : List Char :=
  match firstIdx c cs with
  | some j => cs.take (j + 1)
  | none => cs

/-- Strategy 3: `replace(/^[\s\S]*?(?=\{)/, '')` drops everything
before the first opening brace, then everything after the first closing
brace of what remains is truncated, then trim; the result is kept only
when it starts with an opening and ends with a closing brace. -/
def strategyCleaned (cs : List Char) : List Char :=
  let c := trimChars (truncateAfterFirst '}' (dropBeforeFirst '{' cs))
  if c.head? = some '{' ∧ c.getLast? = some '}' then c else []

/-- The strategy cascade of the strict pass: each strategy runs only
when the previous ones left `jsonContent` empty. -/
def extractionCandidate (cs : List Char) : List Char :=
  let s1 := strategyCodeBlock cs
  if s1 ≠ [] then s1
  else
    let s2 := strategyBraceSpan cs
    if s2 ≠ [] then s2
    else strategyCleaned cs

/-- Strict pass of `parseAIResponse`: parse the extracted candidate, or
fail with the message thrown when no candidate was found. -/
def strictPass (cs : List Char) : Except String Json :=
  let c := extractionCandidate cs
  if c = [] then .error "No valid JSON found in AI response"
  else parseJson c

/-- One step of the global replace `/,\s*X/g → X` for a closing
delimiter X: a comma followed by whitespace and the delimiter collapses
to the delimiter, and scanning resumes after it.  The fuel argument
only discharges termination: any fuel at least the input length behaves
identically. -/
def replaceCommaCloseFuel (target : Char) : Nat → List Char → List Char
  | 0, cs => cs
  | _, [] => []
  | fuel + 1, c :: tl =>
    if c = ',' then
      let rest := tl.dropWhile isJsWS
      match rest with
      | d :: tl2 =>
        if d = target then target :: replaceCommaCloseFuel target fuel tl2
        else c :: replaceCommaCloseFuel target fuel tl
      | [] => c :: replaceCommaCloseFuel target fuel tl
    else c :: replaceCommaCloseFuel target fuel tl

/-- Global replace `/,\s*X/g → X` (trailing-comma removal). -/
def replaceCommaClose (target : Char) (cs : List Char) : List Char :=
  replaceCommaCloseFuel target (cs.length + 1) cs

/-- The fallback repair of `parseAIResponse`: drop everything before
the first opening brace (keeping it), truncate after the first closing
brace, remove trailing commas before closing braces and brackets, and
trim. -/
def repairCandidate (cs : List Char) : List Char :=
  let b := truncateAfterFirst '}' (dropBeforeFirst '{' cs)
  let c := replaceCommaClose '}' b
  let d := replaceCommaClose ']' c
  trimChars d

/-- Fallback pass of `parseAIResponse`. -/
def fallbackPass (cs : List Char) : Except String Json :=
  parseJson (repairCandidate cs)

/-- Model of `parseAIResponse` (src/server.js lines 799-850): strict
pass, then the repair pass; when both fail the raised error carries the
original parse error message only. -/
def parseAIResponse (s : String) : Except String Json :=
  match strictPass s.data with
  | .ok j => .ok j
  | .error parseError =>
    match fallbackPass s.data with
    | .ok j => .ok j
    | .error _ => .error ("Failed to parse AI response: " ++ parseError)

/-- Error detail object sent by the process-code handler of
src/unnamed/part_000 (lines 1061-1078) when both passes fail. -/
structure ParseFailureDetails where
  errorMsg : String
  originalError : String
  fallbackError : String
  responsePreview : String
  suggestion : String
deriving DecidableEq, Repr

/-- Model of the parsing step of the process-code handler in
src/unnamed/part_000 (lines 1006-1079): same two passes, but the error
payload carries the original error, the fallback error and a preview of
the first 200 characters of the raw text followed by an ellipsis. -/
def parseAIResponseDetailed (s : String) : Except ParseFailureDetails Json :=
  match strictPass s.data with
  | .ok j => .ok j
  | .error parseError =>
    match fallbackPass s.data with
    | .ok j => .ok j
    | .error fallbackError =>
      .error
        { errorMsg := "Failed to parse AI response as JSON"
          originalError := parseError
          fallbackError := fallbackError
          responsePreview := String.mk (s.data.take 200) ++ "..."
          suggestion := "The AI response format was unexpected. This might be a temporary issue. Please try again." }

/-! ## Model access policy (src/server.js lines 619-661)

The two plan/model gates of `validateAndProcessRequest`, as a pure
function of plan, requested model and the caller-supplied upstream key.
The result is `none` when the request proceeds and otherwise the error
string and `data` payload of the emitted SSE error event. -/

/-- Invalid caller-supplied credential check of line 642:
`!userApiKey || typeof userApiKey !== 'string' || userApiKey.trim() === ''`.
The same test guards `api_key` at line 582. -/
def invalidStringField (v : JVal) : Bool :=
  !truthy v || !isStringV v ||
    (match v with
     | .jstr s => trimStr s = ""
     | _ => false)

/-- The `received.userApiKey` diagnostic of line 651:
`userApiKey ? 'PROVIDED_BUT_INVALID' : 'NOT_PROVIDED'`. -/
def receivedUserApiKey (v : JVal) : String :=
  if truthy v then "PROVIDED_BUT_INVALID" else "NOT_PROVIDED"

/-- Model of the model-access section of `validateAndProcessRequest`
(src/server.js lines 619-661): the gpt5-mini/free gate, then the
free/deepseek-r1 caller-credential gate. -/
def policyCheck (plan selectedModel : String) (userApiKey : JVal) :
    Option (String × Json) :=
  if selectedModel = "gpt5-mini" ∧ plan = "free" then
    some ("GPT-5 Mini is only available for Pro plan users. Free users can use DeepSeek R1",
      .obj [("currentPlan", .str "free"),
            ("availableModels", .arr [.str "deepseek-r1"]),
            ("proModels", .arr [.str "gpt5-mini"])])
  else if plan = "free" ∧ selectedModel = "deepseek-r1" then
    if invalidStringField userApiKey then
      some ("Free users must provide their OpenRouter API key to use DeepSeek R1 model.",
        .obj [("currentPlan", .str "free"),
              ("requiredField", .str "userApiKey"),
              ("message", .str "Please provide your OpenRouter API key in the userApiKey field"),
              ("received", .obj [("userApiKey", .str (receivedUserApiKey userApiKey)),
                                 ("selectedModel", .str selectedModel)])])
    else none
  else none

/-! ## Credential lookup (src/server.js lines 125-162)

`findApiKeyRecord` fetches every api_keys row whose stored hash is not
null and tests each with `bcrypt.compare`.  The bcrypt primitive is a
parameter `verify`; the database table is a list of records. -/

/-- One row of the api_keys table joined with the owning user plan.
A revoked secret is `none` (SQL null). -/
structure ApiKeyRecord where
  name : String
  api_key : Option String
  count : Nat
  last_reset_date : String
  plan : String
deriving DecidableEq, Repr

/-- Model of `findApiKeyRecord` (src/server.js lines 136-162): filter
rows with a non-null stored hash (the `.not('api_key', 'is', null)`
query clause), then return the first row whose hash verifies against
the supplied plaintext, or `none`. -/
def findApiKeyRecord (verify : String → String → Bool) (plainApiKey : String)
    (table : List ApiKeyRecord) : Option ApiKeyRecord :=
  (table.filter (fun r => r.api_key.isSome)).find?
    (fun r => verify plainApiKey (r.api_key.getD ""))

/-! ## Usage limiter

The stored counter is mutated only through the Postgres function
`increment_api_count`, which is not part of the repository sources. -/

/-- Result row returned by the count-management stored procedure. -/
structure CountResult where
  success : Bool
  errorMsg : String
  count : Nat
  limit : Nat
  remaining : Int
deriving DecidableEq, Repr

/-- Modelled from the spec: the Postgres stored procedure
`increment_api_count` is not under src/ (only its callers are); this
follows section 4.1 of the specification.  Free plan: deny at the
lifetime limit before incrementing, otherwise increment.  Pro plan: the
effective count is 0 when the stored reset date is not today; deny at
the daily limit, otherwise increment and persist today as the reset
date. -/
def increment_api_count (freeLimit dailyLimit : Nat) (today : String)
    (r : ApiKeyRecord) : CountResult × ApiKeyRecord :=
  if r.plan = "free" then
    if freeLimit ≤ r.count then
      ({ success := false
         errorMsg := "Free plan limit reached. You have used all 3 lifetime requests. Please upgrade to Pro plan for more usage."
         count := r.count, limit := freeLimit, remaining := 0 }, r)
    else
      ({ success := true, errorMsg := ""
         count := r.count + 1, limit := freeLimit
         remaining := (freeLimit : Int) - (r.count + 1 : Nat) },
       { r with count := r.count + 1 })
  else
    let eff : Nat := if r.last_reset_date ≠ today then 0 else r.count
    if dailyLimit ≤ eff then
      ({ success := false
         errorMsg := "Daily limit reached. Please try again tomorrow."
         count := eff, limit := dailyLimit, remaining := 0 }, r)
    else
      ({ success := true, errorMsg := ""
         count := eff + 1, limit := dailyLimit
         remaining := (dailyLimit : Int) - (eff + 1 : Nat) },
       { r with count := eff + 1, last_reset_date := today })

/-- Outcome of the usage-limiting step of a streaming request. -/
inductive UsageOutcome where
  | denied (errorMsg : String) (count : Nat) (limit : Nat) (remaining : Int)
  | allowed (cr : CountResult)
deriving DecidableEq, Repr

/-- Result of one run of the usage-limiting step: the outcome sent to
the caller, the record as stored afterwards, and whether the increment
operation was invoked at all. -/
structure UsageStepResult where
  outcome : UsageOutcome
  record : ApiKeyRecord
  incrementAttempted : Bool
deriving DecidableEq, Repr

/-- Model of the usage-limiting step of the process-code handler in
src/unnamed/part_000 (lines 910-955): for a free-plan caller the
lifetime limit of 3 is checked first and a denial with remaining 0 is
emitted before the increment procedure is ever called; otherwise
`increment_api_count` runs and its failure is reported with
`remaining = limit - count`. -/
def usageLimitStep (dailyLimit : Nat) (today : String) (r : ApiKeyRecord) :
    UsageStepResult :=
  if r.plan = "free" ∧ 3 ≤ r.count then
    { outcome := .denied "Free plan limit reached. You have used all 3 lifetime requests. Please upgrade to Pro plan for more usage." r.count 3 0
      record := r
      incrementAttempted := false }
  else
    let (cr, r') := increment_api_count 3 dailyLimit today r
    if !cr.success then
      { outcome := .denied cr.errorMsg cr.count cr.limit ((cr.limit : Int) - (cr.count : Int))
        record := r'
        incrementAttempted := true }
    else
      { outcome := .allowed cr, record := r', incrementAttempted := true }

/-- Repeated application of the usage-limiting step to the stored
record. -/
def iterateUsageStep (dailyLimit : Nat) (today : String) :
    Nat → ApiKeyRecord → ApiKeyRecord
  | 0, r => r
  | n + 1, r => iterateUsageStep dailyLimit today n (usageLimitStep dailyLimit today r).record

/-! ## AI backend dispatcher (src/unnamed/part_000 lines 702-836)

`callDeepSeekAPI` walks the ordered list of OpenRouter clients; the
behaviour of attempt i is a parameter.  An attempt either streams to
completion and yields the accumulated text, or throws an error with a
message and an optional HTTP status. -/

/-- Behaviour of one upstream attempt. -/
inductive APIAttempt where
  | succeeded (text : String)
  | failed (message : String) (status : Option Nat)
deriving DecidableEq, Repr

/-- Rate-limit classification of lines 769-772: the lower-cased message
contains rate limit, quota or 429, or the status is 429. -/
def isRateLimitError (message : String) (status : Option Nat) : Bool :=
  containsSub (lowerStr message).data "rate limit".data ||
  containsSub (lowerStr message).data "quota".data ||
  containsSub (lowerStr message).data "429".data ||
  status = some 429

/-- Final result of the dispatcher: the accumulated text, or the thrown
error message. -/
inductive DispatchResult where
  | ok (text : String)
  | thrown (message : String)
deriving DecidableEq, Repr

/-- The failover loop of `callDeepSeekAPI` (lines 718-786), returning
how many attempts were made together with the result.  `lastErr` is the
`lastError` variable of the source.  A rate-limit-class failure moves to
the next credential; any other failure is rethrown at once; exhausting
the list throws one aggregated error naming the last underlying error. -/
def deepSeekFailover : List APIAttempt → Option String → Nat × DispatchResult
  | [], lastErr =>
    (0, .thrown ("All DeepSeek API keys failed. Last error: " ++ lastErr.getD "Unknown error"))
  | .succeeded t :: _, _ => (1, .ok t)
  | .failed m st :: rest, _ =>
    if isRateLimitError m st then
      let (n, res) := deepSeekFailover rest (some m)
      (n + 1, res)
    else (1, .thrown m)

/-- Model of `callDeepSeekAPI` (src/unnamed/part_000 lines 702-836).
`attempts` gives the behaviour of the successive OpenRouter clients and
`gptAttempt` the behaviour of the single OpenAI call of the gpt5-mini
branch. -/
def callDeepSeekAPI (plan model : String) (attempts : List APIAttempt)
    (gptAttempt : APIAttempt) : Nat × DispatchResult :=
  if plan = "free" ∧ model ≠ "deepseek-r1" then
    (0, .thrown "Free plan users can only use DeepSeek R1 model. Please upgrade to Pro for access to other models.")
  else if plan ≠ "free" ∧ model = "deepseek-r1" then
    (0, .thrown "DeepSeek R1 is only available for free plan users. Pro users have access to GPT-5 Mini.")
  else if model = "deepseek-r1" then
    deepSeekFailover attempts none
  else if model = "gpt5-mini" then
    match gptAttempt with
    | .succeeded t => (1, .ok t)
    | .failed m _ => (1, .thrown m)
  else
    (0, .thrown ("Unsupported model: " ++ model ++ ". Available models: DeepSeek R1 (free users), GPT-5 Mini (pro users)"))

/-! ## SSE event traces (src/server.js lines 542-563, 565-698, 1225-1484)

Each streaming handler is modelled as a function from the request body
and the environment to the HTTP status written by `setupSSEHeaders`
plus the ordered list of actions performed: SSE events written, the
count-increment RPC, prompt building, and the model invocation. -/

/-- One SSE event as written by `sendSSEMessage` or `endSSE`; the
payload fields a claim inspects are carried on the constructor. -/
inductive Event where
  | connected
  | status (msg : String)
  | chunk (content : String)
  | errorEv (msg : String)
  | finalEv (doc : Json)
  | complete (msg : String)
  | endEv

/-- One observable action of a streaming handler, in execution order. -/
inductive TraceAction where
  | ev (e : Event)
  | dbIncrement (name : String)
  | buildPrompt
  | invokeModel

/-- The pair of actions every stream-level failure ends with: an error
event followed by the end event. -/
def errEnd (msg : String) : List TraceAction :=
  [.ev (.errorEv msg), .ev .endEv]

/-- Request-body field access: destructuring an absent key yields
undefined. -/
def bodyGet (body : List (String × JVal)) (k : String) : JVal :=
  (body.lookup k).getD .undefinedV

/-- First required field whose body value is falsy, if any (the
required-fields loop of lines 596-602). -/
def firstMissingField (body : List (String × JVal)) : List String → Option String
  | [] => none
  | f :: rest =>
    if !truthy (bodyGet body f) then some f else firstMissingField body rest

/-- The `selectedModel` test of line 589:
`!selectedModel || typeof selectedModel !== 'string'`. -/
def invalidModelField (v : JVal) : Bool :=
  !truthy v || !isStringV v

/-- String content of a JS value known to be a string. -/
def strOfJVal : JVal → String
  | .jstr s => s
  | _ => ""

/-- Replace the row of the given name in the table (the persistence of
the increment procedure). -/
def updateTable (table : List ApiKeyRecord) (r' : ApiKeyRecord) : List ApiKeyRecord :=
  table.map (fun r => if r.name = r'.name then r' else r)

/-- Evaluation of `userApiKey?.trim()` at line 696: undefined and null
short-circuit to an absent key, a string is trimmed, and any other
truthy value raises a TypeError (`none` here), which the route handler
catches. -/
def jsTrimOptional : JVal → Option (Option String)
  | .undefinedV => some none
  | .jnull => some none
  | .jstr s => some (some (trimStr s))
  | _ => none

/-- Data returned by a successful `validateAndProcessRequest`. -/
structure ValidationData where
  record : ApiKeyRecord
  countResult : CountResult
  selectedModel : String
  userApiKey : Option String
deriving DecidableEq, Repr

/-- How `validateAndProcessRequest` finished: stream-level failure
(null return after error and end events), an exception propagating to
the route handler, or success with its data. -/
inductive ValidateOutcome where
  | failed
  | threw (msg : String)
  | passed (d : ValidationData)
deriving DecidableEq, Repr

/-- The environment of a request: the bcrypt verifier, the api_keys
table, the pro-plan daily limit and the current date. -/
structure Env where
  verify : String → String → Bool
  table : List ApiKeyRecord
  dailyLimit : Nat
  today : String

/-- The debug logging at src/server.js line 574 evaluates
`userApiKey.substring(0, 10)` whenever the field is truthy; a truthy
non-string value (a number, true, an object or an array) has no
substring method and throws a TypeError there, before `setupSSEHeaders`
and the connected event. -/
def preUpgradeThrow (userApiKey : JVal) : Bool :=
  truthy userApiKey && !isStringV userApiKey

/-- Model of `validateAndProcessRequest` (src/server.js lines 565-698):
debug logging (whose `userApiKey.substring` call can throw before the
stream is upgraded), then SSE upgrade and connected event, api_key and
selectedModel checks, required-field checks, credential lookup, the
model-access policy gates, and the count increment.  Returns the
actions performed, the outcome, and the table after any increment.  The
variant in server.js has no free-plan pre-check: it calls
`increment_api_count` directly.  A pre-upgrade throw yields no actions
at all: the route handler catch then writes the error and end events to
a response that was never upgraded (Node supplies the implicit 200 on
the first write, with no SSE headers).  The final `userApiKey?.trim()`
throws a TypeError when the field holds a falsy non-nullish non-string,
which the route handler also catches after the upgrade. -/
def validateAndProcessRequest (env : Env) (body : List (String × JVal))
    (requiredFields : List String) :
    List TraceAction × ValidateOutcome × List ApiKeyRecord :=
  let api_key := bodyGet body "api_key"
  let selectedModel := bodyGet body "selectedModel"
  let userApiKey := bodyGet body "userApiKey"
  if preUpgradeThrow userApiKey then
    ([], .threw "userApiKey.substring is not a function", env.table)
  else
  let acts0 : List TraceAction := [.ev .connected]
  if invalidStringField api_key then
    (acts0 ++ errEnd "API key is required and must be a valid string", .failed, env.table)
  else if invalidModelField selectedModel then
    (acts0 ++ errEnd "selectedModel is required and must be a valid string", .failed, env.table)
  else
    match firstMissingField body requiredFields with
    | some f => (acts0 ++ errEnd (f ++ " is required"), .failed, env.table)
    | none =>
      let apiKey := trimStr (strOfJVal api_key)
      let acts1 := acts0 ++ [.ev (.status "Validating API key...")]
      match findApiKeyRecord env.verify apiKey env.table with
      | none => (acts1 ++ errEnd "Invalid API key", .failed, env.table)
      | some apiKeyData =>
        match policyCheck apiKeyData.plan (strOfJVal selectedModel) userApiKey with
        | some (msg, _) => (acts1 ++ errEnd msg, .failed, env.table)
        | none =>
          let acts2 := acts1 ++ [.ev (.status "Checking usage limits...")]
          let acts3 := acts2 ++ [.dbIncrement apiKeyData.name]
          let (countResult, r') :=
            increment_api_count 3 env.dailyLimit env.today apiKeyData
          let table' := updateTable env.table r'
          if !countResult.success then
            (acts3 ++ errEnd countResult.errorMsg, .failed, table')
          else
            match jsTrimOptional userApiKey with
            | some o =>
              (acts3,
               .passed { record := apiKeyData, countResult := countResult
                         selectedModel := strOfJVal selectedModel, userApiKey := o },
               table')
            | none => (acts3, .threw "userApiKey.trim is not a function", table')

/-- Behaviour of the upstream streaming call made for this request: the
chunks delivered, then an optional error thrown mid-stream. -/
structure UpstreamBehavior where
  chunks : List String
  failure : Option String
deriving Repr

/-- Chunk events written while streaming: one per truthy (non-empty)
content fragment, in arrival order. -/
def streamEvents (chunks : List String) : List TraceAction :=
  (chunks.filter (fun c => c ≠ "")).map (fun c => .ev (.chunk c))

/-- The accumulated full response: concatenation of the truthy
fragments. -/
def accumulateChunks (chunks : List String) : String :=
  String.join (chunks.filter (fun c => c ≠ ""))

/-- Model of `callAIModel` (src/server.js lines 700-797): chunk events
written to the stream plus the returned full text or the thrown error
message.  The deepseek-r1 branch for free users uses the caller key and
wraps upstream failures; the gpt5-mini branch for pro users rethrows
them unchanged. -/
def callAIModel (model : String) (userPlan : String) (userApiKey : Option String)
    (upstream : UpstreamBehavior) : List TraceAction × Except String String :=
  if model = "deepseek-r1" then
    if userPlan = "free" then
      if userApiKey.getD "" = "" then
        ([], .error "OpenRouter API key is required for free users to use DeepSeek R1")
      else
        match upstream.failure with
        | none => (streamEvents upstream.chunks, .ok (accumulateChunks upstream.chunks))
        | some m =>
          (streamEvents upstream.chunks,
           .error ("DeepSeek R1 API call failed with your OpenRouter API key: " ++ m))
    else
      ([], .error "Pro users should use GPT-5 Mini model instead of DeepSeek R1")
  else if model = "gpt5-mini" then
    if userPlan = "free" then
      ([], .error "GPT-5 Mini is only available for Pro users")
    else
      match upstream.failure with
      | none => (streamEvents upstream.chunks, .ok (accumulateChunks upstream.chunks))
      | some m => (streamEvents upstream.chunks, .error m)
  else
    ([], .error ("Unsupported model: " ++ model ++ ". Available models: deepseek-r1 (free), gpt5-mini (pro)"))

/-- The files-key coercion of the route handlers (src/server.js lines
1271-1273, 1365-1367, 1445-1447).  Reading `.files` of a null document
throws a TypeError: server.js has no null guard, unlike
part_000:1082-1092.  On an object, a missing, falsy or non-array files
value is overwritten with an empty array.  On a remaining primitive the
property read yields undefined via boxing and the assignment is a
silent no-op in non-strict JS, so the document passes through (a JS
array document would gain the property, which the arr constructor
cannot carry; no claim inspects the final payload of a non-object
document). -/
def ensureFilesKey : Json → Except String Json
  | .null => .error "Cannot read properties of null (reading files)"
  | .obj kvs =>
    match lookupKey "files" kvs with
    | some v =>
      if truthyJson v ∧ isArrJson v then .ok (.obj kvs)
      else .ok (.obj (setKey "files" (.arr []) kvs))
    | none => .ok (.obj (setKey "files" (.arr []) kvs))
  | other => .ok other

/-- An HTTP response of a streaming endpoint: the status code written
by `setupSSEHeaders` and the ordered actions. -/
structure SSEResponse where
  statusCode : Nat
  actions : List TraceAction

/-- Everything after validation in the process-code handler
(src/server.js lines 1233-1308), shared shape with the other two
handlers up to messages and input checks. -/
def runPipeline (vActs : List TraceAction) (d : ValidationData)
    (upstream : UpstreamBehavior)
    (promptStatus startStatus parseStatus completeMsg : String) : List TraceAction :=
  let acts1 := vActs ++
    [.ev (.status promptStatus), .buildPrompt,
     .ev (.status startStatus), .invokeModel]
  let (aiActs, aiRes) := callAIModel d.selectedModel d.record.plan d.userApiKey upstream
  match aiRes with
  | .error m => acts1 ++ aiActs ++ errEnd m
  | .ok text =>
    let acts2 := acts1 ++ aiActs ++ [.ev (.status parseStatus)]
    match parseAIResponse text with
    | .error m => acts2 ++ errEnd m
    | .ok doc =>
      match ensureFilesKey doc with
      | .error m => acts2 ++ errEnd m
      | .ok coerced =>
        acts2 ++
          [.ev (.finalEv coerced),
           .ev (.complete completeMsg), .ev .endEv]

/-- Continuation of the `/api/process-code` handler after
`validateAndProcessRequest` returned (src/server.js lines 1233-1308):
input validation of files and packageJson, then the pipeline. -/
def processCodeAfterValidate (body : List (String × JVal)) (upstream : UpstreamBehavior)
    (vActs : List TraceAction) (outcome : ValidateOutcome)
    (table' : List ApiKeyRecord) : SSEResponse × List ApiKeyRecord :=
  match outcome with
  | .failed => ({ statusCode := 200, actions := vActs }, table')
  | .threw m => ({ statusCode := 200, actions := vActs ++ errEnd m }, table')
  | .passed d =>
    let files := bodyGet body "files"
    let packageJson := bodyGet body "packageJson"
    if !truthy files || !isArrV files || arrLenV files == 0 then
      ({ statusCode := 200
         actions := vActs ++ errEnd "Invalid input: files array is required and cannot be empty" },
       table')
    else if !truthy packageJson || !typeofObject packageJson then
      ({ statusCode := 200
         actions := vActs ++ errEnd "Invalid input: packageJson is required and must be an object" },
       table')
    else
      ({ statusCode := 200
         actions := runPipeline vActs d upstream
           "Creating refactoring prompt..." "Starting AI processing with streaming..."
           "AI processing completed. Parsing response..." "Processing completed successfully" },
       table')

/-- Model of the `/api/process-code` handler (src/server.js lines
1225-1309). -/
def processCodeHandler (env : Env) (body : List (String × JVal))
    (upstream : UpstreamBehavior) : SSEResponse × List ApiKeyRecord :=
  let (vActs, outcome, table') :=
    validateAndProcessRequest env body
      ["projectType", "files", "projectLanguage", "packageJson"]
  processCodeAfterValidate body upstream vActs outcome table'

/-- The userPrompt test of line 1325:
`!userPrompt || typeof userPrompt !== 'string' || userPrompt.trim() === ''`. -/
def invalidUserPrompt (v : JVal) : Bool :=
  invalidStringField v

/-- Continuation of the `/api/generate-custom` handler after
validation (src/server.js lines 1320-1402). -/
def generateCustomAfterValidate (body : List (String × JVal)) (upstream : UpstreamBehavior)
    (vActs : List TraceAction) (outcome : ValidateOutcome)
    (table' : List ApiKeyRecord) : SSEResponse × List ApiKeyRecord :=
  match outcome with
  | .failed => ({ statusCode := 200, actions := vActs }, table')
  | .threw m => ({ statusCode := 200, actions := vActs ++ errEnd m }, table')
  | .passed d =>
    let userPrompt := bodyGet body "userPrompt"
    let packageJson := bodyGet body "packageJson"
    if invalidUserPrompt userPrompt then
      ({ statusCode := 200
         actions := vActs ++ errEnd "User prompt is required and must be a valid string" },
       table')
    else if !truthy packageJson || !typeofObject packageJson then
      ({ statusCode := 200
         actions := vActs ++ errEnd "Invalid input: packageJson is required and must be an object" },
       table')
    else
      ({ statusCode := 200
         actions := runPipeline vActs d upstream
           "Creating custom generation prompt..." "Starting AI processing with streaming..."
           "AI processing completed. Parsing response..." "Custom generation completed successfully" },
       table')

/-- Model of the `/api/generate-custom` handler (src/server.js lines
1312-1403). -/
def generateCustomHandler (env : Env) (body : List (String × JVal))
    (upstream : UpstreamBehavior) : SSEResponse × List ApiKeyRecord :=
  let (vActs, outcome, table') :=
    validateAndProcessRequest env body
      ["projectType", "projectLanguage", "userPrompt", "packageJson"]
  generateCustomAfterValidate body upstream vActs outcome table'

/-- Continuation of the `/api/optimize-files` handler after validation
(src/server.js lines 1414-1483). -/
def optimizeFilesAfterValidate (body : List (String × JVal)) (upstream : UpstreamBehavior)
    (vActs : List TraceAction) (outcome : ValidateOutcome)
    (table' : List ApiKeyRecord) : SSEResponse × List ApiKeyRecord :=
  match outcome with
  | .failed => ({ statusCode := 200, actions := vActs }, table')
  | .threw m => ({ statusCode := 200, actions := vActs ++ errEnd m }, table')
  | .passed d =>
    let files := bodyGet body "files"
    if !truthy files || !isArrV files || arrLenV files == 0 then
      ({ statusCode := 200
         actions := vActs ++ errEnd "Files array is required and cannot be empty" },
       table')
    else
      ({ statusCode := 200
         actions := runPipeline vActs d upstream
           "Creating optimization analysis..." "Starting AI optimization analysis with streaming..."
           "AI optimization completed. Parsing response..." "File optimization completed successfully" },
       table')

/-- Model of the `/api/optimize-files` handler (src/server.js lines
1406-1484). -/
def optimizeFilesHandler (env : Env) (body : List (String × JVal))
    (upstream : UpstreamBehavior) : SSEResponse × List ApiKeyRecord :=
  let (vActs, outcome, table') :=
    validateAndProcessRequest env body
      ["projectType", "projectLanguage", "files"]
  optimizeFilesAfterValidate body upstream vActs outcome table'

/-! ## Event-type sequences -/

/-- The bare type tag of an event. -/
inductive ETag where
  | connectedT | statusT | chunkT | errorT | finalT | completeT | endT
deriving DecidableEq, Repr

/-- Tag of an event. -/
def etag : Event → ETag
  | .connected => .connectedT
  | .status _ => .statusT
  | .chunk _ => .chunkT
  | .errorEv _ => .errorT
  | .finalEv _ => .finalT
  | .complete _ => .completeT
  | .endEv => .endT

/-- SSE events among the actions, in order. -/
def eventsOf (acts : List TraceAction) : List Event :=
  acts.filterMap (fun a => match a with | .ev e => some e | _ => none)

/-- Event-type sequence of a handler run. -/
def etags (acts : List TraceAction) : List ETag :=
  (eventsOf acts).map etag

/-- The event-type pattern asserted by the specification for a
successful request: connected, then statuses, then chunks, then final,
then an optional complete, then end. -/
def specSuccessShape (l : List ETag) : Bool :=
  match l with
  | .connectedT :: rest =>
    let r1 := rest.dropWhile (fun t => t = .statusT)
    let r2 := r1.dropWhile (fun t => t = .chunkT)
    match r2 with
    | .finalT :: r3 => r3 = [.completeT, .endT] || r3 = [.endT]
    | _ => false
  | _ => false

/-- Number of count-increment RPC calls among the actions of a run. -/
def countIncrements (acts : List TraceAction) : Nat :=
  (acts.filter (fun a => match a with | .dbIncrement _ => true | _ => false)).length

/-! ## Concrete instances used by witnesses

A computable stand-in for the bcrypt pair: hashing prepends a marker
character, verification compares against the recomputed hash.  It
satisfies the verification contract assumed of bcrypt (a hash verifies
only against its original plaintext) and makes the lookup executable. -/

/-- Concrete hash function for witnesses. -/
def hashModel (p : String) : String :=
  String.mk ('H' :: p.data)

/-- Concrete verifier for witnesses. -/
def verifyModel (p h : String) : Bool :=
  h == hashModel p

/-- Concrete api_keys table for witnesses: a revoked row, a pro row and
a free row. -/
def tableW : List ApiKeyRecord :=
  [{ name := "revoked-user", api_key := none, count := 0,
     last_reset_date := "2026-10-01", plan := "free" },
   { name := "alice", api_key := some (hashModel "alice-key"), count := 0,
     last_reset_date := "2026-10-11", plan := "pro" },
   { name := "bob", api_key := some (hashModel "bob-key"), count := 2,
     last_reset_date := "2026-10-01", plan := "free" }]

/-- Concrete environment for witnesses. -/
def envW : Env :=
  { verify := verifyModel, table := tableW, dailyLimit := 100, today := "2026-10-12" }

/-- Concrete valid pro-plan request body for witnesses. -/
def bodyPro : List (String × JVal) :=
  [("api_key", .jstr "alice-key"), ("selectedModel", .jstr "gpt5-mini"),
   ("projectType", .jstr "node"), ("files", .jarrLen 1),
   ("projectLanguage", .jstr "JavaScript"), ("packageJson", .jobj)]

/-- Upstream behaviour delivering one well-formed JSON chunk. -/
def upFiles : UpstreamBehavior :=
  { chunks := ["\x7b\"files\":[]\x7d"], failure := none }

/-- Upstream behaviour delivering a JSON chunk without a files key. -/
def upNoFiles : UpstreamBehavior :=
  { chunks := ["\x7b\"a\":1\x7d"], failure := none }

/-- Upstream behaviour whose call fails after one chunk. -/
def upFailing : UpstreamBehavior :=
  { chunks := ["partial"], failure := some "boom" }

/-- Effective count seen by the increment procedure before adding one:
the stored count for the free plan, and the rolled-over count for the
pro plan. -/
def effectiveCount (today : String) (r : ApiKeyRecord) : Nat :=
  if r.plan = "free" then r.count
  else if r.last_reset_date ≠ today then 0 else r.count

/-- Whether every attempt in the list is a rate-limit-class failure. -/
def allRateLimited (l : List APIAttempt) : Bool :=
  l.all (fun a => match a with
    | .failed m st => isRateLimitError m st
    | .succeeded _ => false)

/-- A concrete free-plan record at the lifetime limit, used by
witnesses. -/
def bobAtLimit : ApiKeyRecord :=
  { name := "bob", api_key := some (hashModel "bob-key"), count := 3,
    last_reset_date := "2026-10-01", plan := "free" }

/-- The alice record of `tableW`, as found by the credential lookup. -/
def aliceRecord : ApiKeyRecord :=
  { name := "alice", api_key := some (hashModel "alice-key"), count := 0,
    last_reset_date := "2026-10-11", plan := "pro" }

/-! # Theorems -/

/-- C1: for an authenticated streaming request, the model-access policy
evaluates as follows.  A free-plan request for gpt5-mini is denied with
a reason whose data names the models available to free users.  A
free-plan request for deepseek-r1 with an absent, non-string or blank
caller-supplied upstream credential is denied with a distinct reason
requiring the caller credential.  A free-plan request for deepseek-r1
with a non-blank string credential proceeds. -/
theorem modelAccessPolicy_free_gating (v : JVal) (s : String) :
    policyCheck "free" "gpt5-mini" v =
      some ("GPT-5 Mini is only available for Pro plan users. Free users can use DeepSeek R1",
        .obj [("currentPlan", .str "free"),
              ("availableModels", .arr [.str "deepseek-r1"]),
              ("proModels", .arr [.str "gpt5-mini"])]) ∧
    (invalidStringField v = true →
      policyCheck "free" "deepseek-r1" v =
        some ("Free users must provide their OpenRouter API key to use DeepSeek R1 model.",
          .obj [("currentPlan", .str "free"),
                ("requiredField", .str "userApiKey"),
                ("message", .str "Please provide your OpenRouter API key in the userApiKey field"),
                ("received", .obj [("userApiKey", .str (receivedUserApiKey v)),
                                   ("selectedModel", .str "deepseek-r1")])])) ∧
    ("GPT-5 Mini is only available for Pro plan users. Free users can use DeepSeek R1" ≠
      "Free users must provide their OpenRouter API key to use DeepSeek R1 model.") ∧
    (invalidStringField (.jstr s) = false →
      policyCheck "free" "deepseek-r1" (.jstr s) = none) := by
  refine ⟨rfl, ?_, by decide, ?_⟩
  · intro h
    unfold policyCheck
    rw [if_neg (by decide), if_pos (by decide), if_pos h]
  · intro h
    unfold policyCheck
    rw [if_neg (by decide), if_pos (by decide), if_neg]
    simp [h]

/-- Witness for C1 at a missing credential and a concrete non-blank
credential. -/
theorem modelAccessPolicy_free_gating_witness :
    invalidStringField JVal.undefinedV = true ∧
    invalidStringField (JVal.jstr "sk-or-key") = false ∧
    policyCheck "free" "deepseek-r1" JVal.undefinedV =
      some ("Free users must provide their OpenRouter API key to use DeepSeek R1 model.",
        .obj [("currentPlan", .str "free"),
              ("requiredField", .str "userApiKey"),
              ("message", .str "Please provide your OpenRouter API key in the userApiKey field"),
              ("received", .obj [("userApiKey", .str "NOT_PROVIDED"),
                                 ("selectedModel", .str "deepseek-r1")])]) ∧
    policyCheck "free" "deepseek-r1" (JVal.jstr "sk-or-key") = none := by
  refine ⟨by decide, by decide, ?_, ?_⟩
  · exact (modelAccessPolicy_free_gating JVal.undefinedV "sk-or-key").2.1 (by decide)
  · exact (modelAccessPolicy_free_gating JVal.undefinedV "sk-or-key").2.2.2 (by decide)

/-- C2: a free-plan caller whose stored count has reached the lifetime
limit of 3 is denied with remaining 0 by the usage-limiting step before
the increment procedure is invoked, the stored record is unchanged, and
repeating the step any number of times leaves the stored count at its
current value, never above the limit. -/
theorem usageLimiter_free_lifetime_terminal (dailyLimit : Nat) (today : String)
    (r : ApiKeyRecord) (hplan : r.plan = "free") (hcount : 3 ≤ r.count) :
    usageLimitStep dailyLimit today r =
      { outcome := .denied "Free plan limit reached. You have used all 3 lifetime requests. Please upgrade to Pro plan for more usage." r.count 3 0
        record := r
        incrementAttempted := false } ∧
    ∀ n, iterateUsageStep dailyLimit today n r = r := by
  have hstep : usageLimitStep dailyLimit today r =
      { outcome := .denied "Free plan limit reached. You have used all 3 lifetime requests. Please upgrade to Pro plan for more usage." r.count 3 0
        record := r
        incrementAttempted := false } := by
    unfold usageLimitStep
    rw [if_pos ⟨hplan, hcount⟩]
  refine ⟨hstep, ?_⟩
  intro n
  induction n with
  | zero => rfl
  | succ n ih =>
    rw [iterateUsageStep, hstep]
    exact ih

/-- Witness for C2 at a concrete free-plan record with count 3. -/
theorem usageLimiter_free_lifetime_terminal_witness :
    bobAtLimit.plan = "free" ∧ 3 ≤ bobAtLimit.count ∧
    usageLimitStep 100 "2026-10-12" bobAtLimit =
      { outcome := .denied "Free plan limit reached. You have used all 3 lifetime requests. Please upgrade to Pro plan for more usage." 3 3 0
        record := bobAtLimit
        incrementAttempted := false } ∧
    iterateUsageStep 100 "2026-10-12" 5 bobAtLimit = bobAtLimit := by
  refine ⟨rfl, by decide, ?_, ?_⟩
  · exact (usageLimiter_free_lifetime_terminal 100 "2026-10-12" bobAtLimit rfl (by decide)).1
  · exact (usageLimiter_free_lifetime_terminal 100 "2026-10-12" bobAtLimit rfl (by decide)).2 5

/-- When every attempt in the list is a rate-limit-class failure, the
failover loop walks the whole list and throws the aggregated error
naming the last message, whatever error it started from. -/
lemma deepSeekFailover_all_rateLimited :
    ∀ (l : List APIAttempt) (le : Option String), l ≠ [] → allRateLimited l = true →
      ∃ m st, l.getLast? = some (.failed m st) ∧
        deepSeekFailover l le =
          (l.length, .thrown ("All DeepSeek API keys failed. Last error: " ++ m)) := by
  intro l
  induction l with
  | nil => intro le h; exact absurd rfl h
  | cons a tl ih =>
    intro le _ hall
    cases a with
    | succeeded t => simp [allRateLimited] at hall
    | failed m st =>
      simp only [allRateLimited, List.all_cons, Bool.and_eq_true] at hall
      obtain ⟨hhead, htail⟩ := hall
      cases tl with
      | nil =>
        refine ⟨m, st, rfl, ?_⟩
        simp [deepSeekFailover, hhead]
      | cons b tl2 =>
        obtain ⟨m2, st2, hl, he⟩ := ih (some m) (by simp) htail
        refine ⟨m2, st2, ?_, ?_⟩
        · rw [List.getLast?_cons_cons]
          exact hl
        · simp [deepSeekFailover, hhead, he]

/-- When the attempts start with rate-limit-class failures followed by
a non-rate-limit failure, the loop stops at the latter, rethrowing it
after exactly one attempt beyond the rate-limited ones. -/
lemma deepSeekFailover_fast_fail :
    ∀ (pre : List APIAttempt) (le : Option String) (m : String) (st : Option Nat)
      (rest : List APIAttempt), allRateLimited pre = true → isRateLimitError m st = false →
      deepSeekFailover (pre ++ .failed m st :: rest) le = (pre.length + 1, .thrown m) := by
  intro pre
  induction pre with
  | nil =>
    intro le m st rest _ hnr
    simp [deepSeekFailover, hnr]
  | cons a tl ih =>
    intro le m st rest hall hnr
    cases a with
    | succeeded t => simp [allRateLimited] at hall
    | failed ma sta =>
      simp only [allRateLimited, List.all_cons, Bool.and_eq_true] at hall
      obtain ⟨hhead, htail⟩ := hall
      simp [deepSeekFailover, hhead, ih (some ma) m st rest htail hnr]

/-- C3: invoked for the aggregator-routed free-tier model, when all n
failover credentials fail with rate-limit-class errors the dispatcher
makes exactly n attempts in list order and throws one aggregated error
naming the last underlying error; when a non-rate-limit error occurs it
throws that error immediately, attempting no further credential. -/
theorem deepSeekDispatcher_failover (attempts pre rest : List APIAttempt)
    (m : String) (st : Option Nat) (g : APIAttempt) :
    (attempts ≠ [] → allRateLimited attempts = true →
      ∃ mm ss, attempts.getLast? = some (.failed mm ss) ∧
        callDeepSeekAPI "free" "deepseek-r1" attempts g =
          (attempts.length, .thrown ("All DeepSeek API keys failed. Last error: " ++ mm))) ∧
    (allRateLimited pre = true → isRateLimitError m st = false →
      callDeepSeekAPI "free" "deepseek-r1" (pre ++ .failed m st :: rest) g =
        (pre.length + 1, .thrown m)) := by
  have hred : ∀ l : List APIAttempt,
      callDeepSeekAPI "free" "deepseek-r1" l g = deepSeekFailover l none := by
    intro l
    simp [callDeepSeekAPI]
  constructor
  · intro hne hall
    obtain ⟨mm, ss, hlast, hrun⟩ := deepSeekFailover_all_rateLimited attempts none hne hall
    exact ⟨mm, ss, hlast, by rw [hred, hrun]⟩
  · intro hall hnr
    rw [hred]
    exact deepSeekFailover_fast_fail pre none m st rest hall hnr

/-- Witness for C3: three rate-limited credentials give three attempts
and the aggregated error naming the third message; a non-rate-limit
failure at the second credential stops after two attempts. -/
theorem deepSeekDispatcher_failover_witness :
    callDeepSeekAPI "free" "deepseek-r1"
      [.failed "Rate limit exceeded" none, .failed "insufficient quota" none,
       .failed "HTTP 429" (some 429)] (.succeeded "g") =
      (3, .thrown "All DeepSeek API keys failed. Last error: HTTP 429") ∧
    callDeepSeekAPI "free" "deepseek-r1"
      [.failed "rate limit" none, .failed "invalid api key" (some 401), .succeeded "x"]
      (.succeeded "g") =
      (2, .thrown "invalid api key") := by
  constructor
  · obtain ⟨mm, ss, hlast, hrun⟩ :=
      (deepSeekDispatcher_failover
        [.failed "Rate limit exceeded" none, .failed "insufficient quota" none,
         .failed "HTTP 429" (some 429)] [] [] "" none (.succeeded "g")).1
        (by decide) (by decide)
    rw [show ([APIAttempt.failed "Rate limit exceeded" none,
          .failed "insufficient quota" none,
          .failed "HTTP 429" (some 429)].getLast? : Option APIAttempt) =
        some (.failed "HTTP 429" (some 429)) from rfl] at hlast
    simp only [Option.some.injEq, APIAttempt.failed.injEq] at hlast
    obtain ⟨hm, _⟩ := hlast
    rw [← hm] at hrun
    exact hrun
  · have h :=
      (deepSeekDispatcher_failover [] [.failed "rate limit" none] [.succeeded "x"]
        "invalid api key" (some 401) (.succeeded "g")).2 (by decide) (by decide)
    simpa using h

/-- C8: authentication iterates exactly over the credential records
with a non-null stored secret, testing each with the hash-verification
primitive.  A record is returned precisely when some non-null stored
hash verifies against the supplied plaintext; a revoked record (null
secret) is never the result; and under the bcrypt contract that a hash
verifies only against its original plaintext, any match pins the
supplied plaintext to the stored secret's original plaintext. -/
theorem findApiKeyRecord_auth_contract (verify : String → String → Bool)
    (hash : String → String) (plainApiKey : String) (table : List ApiKeyRecord) :
    (∀ r, findApiKeyRecord verify plainApiKey table = some r →
        r ∈ table ∧ ∃ h, r.api_key = some h ∧ verify plainApiKey h = true) ∧
    ((findApiKeyRecord verify plainApiKey table).isSome ↔
        ∃ r ∈ table, ∃ h, r.api_key = some h ∧ verify plainApiKey h = true) ∧
    (∀ r, r ∈ table → r.api_key = none →
        findApiKeyRecord verify plainApiKey table ≠ some r) ∧
    ((∀ p q, verify p (hash q) = true ↔ p = q) →
      ∀ r hsec q, findApiKeyRecord verify plainApiKey table = some r →
        r.api_key = some hsec → hsec = hash q → plainApiKey = q) := by
  have main : ∀ r, findApiKeyRecord verify plainApiKey table = some r →
      r ∈ table ∧ ∃ h, r.api_key = some h ∧ verify plainApiKey h = true := by
    intro r hr
    unfold findApiKeyRecord at hr
    have hmem := List.mem_of_find?_eq_some hr
    have hpred := List.find?_some hr
    obtain ⟨hmem', hsome⟩ := List.mem_filter.mp hmem
    cases hk : r.api_key with
    | none => rw [hk] at hsome; simp at hsome
    | some h =>
      refine ⟨hmem', h, rfl, ?_⟩
      rw [hk] at hpred
      simpa using hpred
  refine ⟨main, ?_, ?_, ?_⟩
  · unfold findApiKeyRecord
    rw [List.find?_isSome]
    constructor
    · rintro ⟨x, hxf, hp⟩
      obtain ⟨hxt, hsome⟩ := List.mem_filter.mp hxf
      cases hk : x.api_key with
      | none => rw [hk] at hsome; simp at hsome
      | some h =>
        refine ⟨x, hxt, h, hk, ?_⟩
        rw [hk] at hp
        simpa using hp
    · rintro ⟨r, hrt, h, hk, hv⟩
      refine ⟨r, List.mem_filter.mpr ⟨hrt, by rw [hk]; rfl⟩, ?_⟩
      rw [hk]
      simpa using hv
  · intro r _ hnone hfind
    obtain ⟨_, h, hk, _⟩ := main r hfind
    rw [hnone] at hk
    exact Option.noConfusion hk
  · intro hcontract r hsec q hfind hk heq
    obtain ⟨_, h, hk', hv⟩ := main r hfind
    have : h = hsec := by
      rw [hk'] at hk
      exact Option.some.inj hk
    subst this
    rw [heq] at hv
    exact (hcontract plainApiKey q).mp hv

/-- Witness for C8: the concrete verifier satisfies the bcrypt
contract; in the concrete table the revoked row is never returned and
the matched row pins the plaintext. -/
theorem findApiKeyRecord_auth_contract_witness :
    findApiKeyRecord verifyModel "bob-key" tableW ≠
      some { name := "revoked-user", api_key := none, count := 0,
             last_reset_date := "2026-10-01", plan := "free" } ∧
    findApiKeyRecord verifyModel "bob-key" tableW =
      some { name := "bob", api_key := some (hashModel "bob-key"), count := 2,
             last_reset_date := "2026-10-01", plan := "free" } ∧
    ("bob-key" : String) = "bob-key" := by
  have hcontract : ∀ p q, verifyModel p (hashModel q) = true ↔ p = q := by
    intro p q
    constructor
    · intro h
      have h' : hashModel q = hashModel p := by simpa [verifyModel] using h
      have hd : ('H' :: q.data) = ('H' :: p.data) := by
        have := congrArg String.data h'
        simpa [hashModel] using this
      have : q.data = p.data := by
        injection hd
      cases p
      cases q
      simp_all
    · intro h
      subst h
      simp [verifyModel]
  have T := findApiKeyRecord_auth_contract verifyModel hashModel "bob-key" tableW
  refine ⟨?_, ?_, ?_⟩
  · exact T.2.2.1 _ (by simp [tableW]) rfl
  · rfl
  · exact T.2.2.2 hcontract
      { name := "bob", api_key := some (hashModel "bob-key"), count := 2,
        last_reset_date := "2026-10-01", plan := "free" }
      (hashModel "bob-key") "bob-key" rfl rfl rfl

/-- Membership is preserved from dropWhile back to the original list. -/
lemma mem_of_mem_dropWhileCh (p : Char → Bool) :
    ∀ {l : List Char} {x : Char}, x ∈ l.dropWhile p → x ∈ l := by
  intro l
  induction l with
  | nil => intro x h; simp at h
  | cons a tl ih =>
    intro x h
    rw [List.dropWhile_cons] at h
    by_cases hp : p a = true
    · rw [if_pos hp] at h
      exact List.mem_cons_of_mem a (ih h)
    · rw [if_neg hp] at h
      exact h

/-- Membership is preserved from the trimmed list back to the original. -/
lemma mem_of_mem_trimChars {x : Char} {cs : List Char} (h : x ∈ trimChars cs) :
    x ∈ cs := by
  unfold trimChars at h
  rw [List.mem_reverse] at h
  have h1 := mem_of_mem_dropWhileCh isJsWS h
  rw [List.mem_reverse] at h1
  exact mem_of_mem_dropWhileCh isJsWS h1

/-- A character that occurs nowhere in the list is not found. -/
lemma findSub_single_none {c : Char} :
    ∀ {cs : List Char}, (∀ x ∈ cs, x ≠ c) → findSub [c] cs = none := by
  intro cs
  induction cs with
  | nil => intro _; rfl
  | cons a tl ih =>
    intro h
    have ha : a ≠ c := h a (by simp)
    unfold findSub
    rw [if_neg, ih (fun x hx => h x (by simp [hx]))]
    · rfl
    · simp [List.isPrefixOf]
      exact fun hc => absurd hc.symm ha

/-- Without a json fence the first strategy yields nothing. -/
lemma strategyCodeBlock_nil {cs : List Char}
    (h : containsSub cs "```json".data = false) : strategyCodeBlock cs = [] := by
  unfold strategyCodeBlock
  unfold containsSub at h
  cases heq : findSub "```json".data cs with
  | none => rfl
  | some i => rw [heq] at h; simp at h

/-- Without an opening brace the second strategy yields nothing. -/
lemma strategyBraceSpan_nil {cs : List Char} (h : ∀ x ∈ cs, x ≠ '{') :
    strategyBraceSpan cs = [] := by
  unfold strategyBraceSpan
  rw [show firstIdx '{' cs = none from findSub_single_none h]

/-- Membership is preserved from `dropBeforeFirst` back to the list. -/
lemma mem_of_mem_dropBeforeFirst {c x : Char} {cs : List Char}
    (h : x ∈ dropBeforeFirst c cs) : x ∈ cs := by
  unfold dropBeforeFirst at h
  cases heq : firstIdx c cs with
  | none => rw [heq] at h; exact h
  | some i => rw [heq] at h; exact List.drop_subset i cs h

/-- Membership is preserved from `truncateAfterFirst` back to the list. -/
lemma mem_of_mem_truncateAfterFirst {c x : Char} {cs : List Char}
    (h : x ∈ truncateAfterFirst c cs) : x ∈ cs := by
  unfold truncateAfterFirst at h
  cases heq : firstIdx c cs with
  | none => rw [heq] at h; exact h
  | some j => rw [heq] at h; exact List.take_subset (j + 1) cs h

/-- A trimmed sublist of a brace-free text cannot start with an opening
brace. -/
lemma cleaned_cond_false {cs b : List Char} (h : ∀ x ∈ cs, x ≠ '{')
    (hb : ∀ x ∈ b, x ∈ cs) :
    ¬ ((trimChars b).head? = some '{' ∧ (trimChars b).getLast? = some '}') := by
  rintro ⟨h1, _⟩
  cases hcb : trimChars b with
  | nil => rw [hcb] at h1; simp at h1
  | cons y ys =>
    rw [hcb] at h1
    simp at h1
    exact h y (hb y (mem_of_mem_trimChars (by rw [hcb]; simp))) h1

/-- Without an opening brace the third strategy yields nothing. -/
lemma strategyCleaned_nil {cs : List Char} (h : ∀ x ∈ cs, x ≠ '{') :
    strategyCleaned cs = [] := by
  unfold strategyCleaned
  rw [if_neg (cleaned_cond_false h
    (fun x hx => mem_of_mem_dropBeforeFirst (mem_of_mem_truncateAfterFirst hx)))]

/-- With no brace and no json fence, the strict extraction produces no
candidate at all. -/
lemma extractionCandidate_nil {cs : List Char}
    (hb : ∀ x ∈ cs, x ≠ '{')
    (hf : containsSub cs "```json".data = false) :
    extractionCandidate cs = [] := by
  unfold extractionCandidate
  rw [strategyCodeBlock_nil hf]
  simp [strategyBraceSpan_nil hb, strategyCleaned_nil hb]

/-- C4 counterexample: the input consisting of the single character 1
contains no brace, yet extraction succeeds with the number 1 instead of
raising an error, because the fallback pass parses the raw text itself. -/
theorem parseAIResponse_bracefree_success :
    ("1".data.all (fun c => !(c = '{') && !(c = '}'))) = true ∧
    parseAIResponse "1" = .ok (.num "1") :=
  ⟨by decide, rfl⟩

/-- C4 (amended): the fenced round trip and the trailing-comma repair
behave as claimed; an input with no braces raises the extraction error
provided it is not itself valid JSON after the fallback repair. -/
theorem parseAIResponse_extraction_cases (s : String)
    (hnb : s.data.all (fun c => !(c = '{') && !(c = '}')) = true)
    (hnf : containsSub s.data "```json".data = false)
    (hfb : (fallbackPass s.data).isOk = false) :
    parseAIResponse "Here is the result:\n```json\n\x7b\"files\":[]\x7d\n```\nThanks" =
      .ok (.obj [("files", .arr [])]) ∧
    parseAIResponse "\x7b\"files\": [1,2,],\x7d" =
      .ok (.obj [("files", .arr [.num "1", .num "2"])]) ∧
    parseAIResponse s =
      .error "Failed to parse AI response: No valid JSON found in AI response" := by
  refine ⟨rfl, rfl, ?_⟩
  have hb : ∀ x ∈ s.data, x ≠ '{' := by
    intro x hx
    have := List.all_eq_true.mp hnb x hx
    simp at this
    exact fun hc => this.1 (by simp [hc])
  have hcand : extractionCandidate s.data = [] := extractionCandidate_nil hb hnf
  have hstrict : strictPass s.data = .error "No valid JSON found in AI response" := by
    unfold strictPass
    rw [hcand]
    rfl
  unfold parseAIResponse
  rw [hstrict]
  cases hf : fallbackPass s.data with
  | ok j => rw [hf] at hfb; simp [Except.isOk, Except.toBool] at hfb
  | error e => rfl

/-- Witness for C4 at a brace-free prose input that also fails the
fallback repair. -/
theorem parseAIResponse_extraction_cases_witness :
    ("no json here".data.all (fun c => !(c = '{') && !(c = '}'))) = true ∧
    containsSub "no json here".data "```json".data = false ∧
    (fallbackPass "no json here".data).isOk = false ∧
    parseAIResponse "no json here" =
      .error "Failed to parse AI response: No valid JSON found in AI response" := by
  refine ⟨by decide, by decide, by decide, ?_⟩
  exact (parseAIResponse_extraction_cases "no json here" (by decide) (by decide)
    (by decide)).2.2

/-- C5 counterexample: in server.js both passes fail on this input, and
the raised error is a bare message that carries neither a repair-pass
error nor any preview of the raw text (the raw text does not occur in
the payload at all), contradicting the claimed error contents. -/
theorem parseAIResponse_error_lacks_preview :
    parseAIResponse "zqzq hello" =
      .error "Failed to parse AI response: No valid JSON found in AI response" ∧
    containsSub "Failed to parse AI response: No valid JSON found in AI response".data
      "zqzq".data = false :=
  ⟨rfl, by decide⟩

/-- C5 (amended): in the part_000 process-code handler, when both the
strict pass and the repair pass fail, the error payload carries the
original parse error, the repair-pass error, and a preview of at most
the first 200 characters of the raw text followed by an ellipsis (203
characters at most, so a raw text longer than 203 characters never fits
in it); the parseAIResponse of server.js instead raises an error
carrying only the original parse error message. -/
theorem parseFailureDetails_payload (s e1 e2 : String)
    (h1 : strictPass s.data = .error e1) (h2 : fallbackPass s.data = .error e2) :
    parseAIResponseDetailed s = .error
      { errorMsg := "Failed to parse AI response as JSON"
        originalError := e1, fallbackError := e2
        responsePreview := String.mk (s.data.take 200) ++ "..."
        suggestion := "The AI response format was unexpected. This might be a temporary issue. Please try again." } ∧
    (String.mk (s.data.take 200) ++ "...").length ≤ 203 ∧
    parseAIResponse s = .error ("Failed to parse AI response: " ++ e1) := by
  refine ⟨?_, ?_, ?_⟩
  · unfold parseAIResponseDetailed
    rw [h1, h2]
  · have hlen : (String.mk (s.data.take 200) ++ "...").length =
        (s.data.take 200).length + 3 := by
      rw [String.length_append]
      rfl
    rw [hlen]
    have := List.length_take 200 s.data
    omega
  · unfold parseAIResponse
    rw [h1, h2]

/-- Witness for C5 at a concrete input failing both passes. -/
theorem parseFailureDetails_payload_witness :
    strictPass "zq no braces".data = .error "No valid JSON found in AI response" ∧
    fallbackPass "zq no braces".data = .error "Unexpected token in JSON" ∧
    parseAIResponseDetailed "zq no braces" = .error
      { errorMsg := "Failed to parse AI response as JSON"
        originalError := "No valid JSON found in AI response"
        fallbackError := "Unexpected token in JSON"
        responsePreview := String.mk ("zq no braces".data.take 200) ++ "..."
        suggestion := "The AI response format was unexpected. This might be a temporary issue. Please try again." } := by
  refine ⟨rfl, rfl, ?_⟩
  exact (parseFailureDetails_payload "zq no braces" _ _ rfl rfl).1

/-- Reduction of `validateAndProcessRequest` on a request that passes
every check: the emitted actions are exactly connected, two statuses
and the increment RPC, the outcome carries the found record, the count
result, the selected model and the trimmed caller key, and the stored
table is updated with the incremented row. -/
lemma validate_passed_eq (env : Env) (body : List (String × JVal)) (rf : List String)
    (rec : ApiKeyRecord) (cr : CountResult) (r' : ApiKeyRecord) (uak : Option String)
    (h1 : invalidStringField (bodyGet body "api_key") = false)
    (h2 : invalidModelField (bodyGet body "selectedModel") = false)
    (h3 : firstMissingField body rf = none)
    (h4 : findApiKeyRecord env.verify (trimStr (strOfJVal (bodyGet body "api_key")))
            env.table = some rec)
    (h5 : policyCheck rec.plan (strOfJVal (bodyGet body "selectedModel"))
            (bodyGet body "userApiKey") = none)
    (h6 : increment_api_count 3 env.dailyLimit env.today rec = (cr, r'))
    (h7 : cr.success = true)
    (h8 : jsTrimOptional (bodyGet body "userApiKey") = some uak) :
    validateAndProcessRequest env body rf =
      ([.ev .connected, .ev (.status "Validating API key..."),
        .ev (.status "Checking usage limits..."), .dbIncrement rec.name],
       .passed { record := rec, countResult := cr
                 selectedModel := strOfJVal (bodyGet body "selectedModel")
                 userApiKey := uak },
       updateTable env.table r') := by
  have h0 : preUpgradeThrow (bodyGet body "userApiKey") = false := by
    cases hval : bodyGet body "userApiKey" <;>
      first
        | (simp [preUpgradeThrow, truthy, isStringV]; done)
        | (rw [hval] at h8; simp [jsTrimOptional] at h8)
  simp [validateAndProcessRequest, h0, h1, h2, h3, h4, h5, h6, h7, h8]

/-- The chunk events of a stream contain no increment RPC. -/
lemma countIncrements_streamEvents (chunks : List String) :
    countIncrements (streamEvents chunks) = 0 := by
  unfold countIncrements streamEvents
  rw [List.filter_map]
  simp

/-- The model invocation writes no increment RPC. -/
lemma countIncrements_callAIModel (model plan : String) (uak : Option String)
    (upstream : UpstreamBehavior) :
    countIncrements (callAIModel model plan uak upstream).1 = 0 := by
  unfold callAIModel
  repeat' split
  all_goals first
    | exact countIncrements_streamEvents _
    | rfl

/-- Prepending an event leaves the increment count unchanged. -/
lemma countIncrements_cons_ev (e : Event) (l : List TraceAction) :
    countIncrements (.ev e :: l) = countIncrements l := rfl

/-- Prepending the prompt-building step leaves the increment count
unchanged. -/
lemma countIncrements_cons_build (l : List TraceAction) :
    countIncrements (.buildPrompt :: l) = countIncrements l := rfl

/-- Prepending the invocation step leaves the increment count
unchanged. -/
lemma countIncrements_cons_invoke (l : List TraceAction) :
    countIncrements (.invokeModel :: l) = countIncrements l := rfl

/-- An empty action list has no increments. -/
lemma countIncrements_nil : countIncrements [] = 0 := rfl

/-- Appending distributes over the increment count. -/
lemma countIncrements_append (l1 l2 : List TraceAction) :
    countIncrements (l1 ++ l2) = countIncrements l1 + countIncrements l2 := by
  unfold countIncrements
  rw [List.filter_append, List.length_append]

/-- The pipeline after validation only appends actions and performs no
further increment RPC. -/
lemma runPipeline_extends (vActs : List TraceAction) (d : ValidationData)
    (upstream : UpstreamBehavior) (p q t u : String) :
    ∃ post, runPipeline vActs d upstream p q t u = vActs ++ post ∧
      countIncrements post = 0 := by
  unfold runPipeline
  rcases hai : callAIModel d.selectedModel d.record.plan d.userApiKey upstream
    with ⟨aiActs, aiRes⟩
  have hai0 : countIncrements aiActs = 0 := by
    have := countIncrements_callAIModel d.selectedModel d.record.plan d.userApiKey upstream
    rw [hai] at this
    exact this
  cases aiRes with
  | error m =>
    refine ⟨[.ev (.status p), .buildPrompt, .ev (.status q), .invokeModel] ++ aiActs ++
      errEnd m, ?_, ?_⟩
    · simp
    · simp [countIncrements_append, countIncrements_cons_ev, countIncrements_cons_build,
        countIncrements_cons_invoke, countIncrements_nil, hai0, errEnd]
  | ok text =>
    cases hp : parseAIResponse text with
    | error m =>
      refine ⟨[.ev (.status p), .buildPrompt, .ev (.status q), .invokeModel] ++ aiActs ++
        ([.ev (.status t)] ++ errEnd m), ?_, ?_⟩
      · simp [hp]
      · simp [countIncrements_append, countIncrements_cons_ev, countIncrements_cons_build,
          countIncrements_cons_invoke, countIncrements_nil, hai0, errEnd]
    | ok doc =>
      cases he : ensureFilesKey doc with
      | error m =>
        refine ⟨[.ev (.status p), .buildPrompt, .ev (.status q), .invokeModel] ++ aiActs ++
          ([.ev (.status t)] ++ errEnd m), ?_, ?_⟩
        · simp [hp, he]
        · simp [countIncrements_append, countIncrements_cons_ev, countIncrements_cons_build,
            countIncrements_cons_invoke, countIncrements_nil, hai0, errEnd]
      | ok coerced =>
        refine ⟨[.ev (.status p), .buildPrompt, .ev (.status q), .invokeModel] ++ aiActs ++
          ([.ev (.status t)] ++
           [.ev (.finalEv coerced), .ev (.complete u), .ev .endEv]), ?_, ?_⟩
        · simp [hp, he]
        · simp [countIncrements_append, countIncrements_cons_ev, countIncrements_cons_build,
            countIncrements_cons_invoke, countIncrements_nil, hai0, errEnd]

/-- Full action trace of a successful process-code run (one in which
the files coercion of the parsed document does not throw): validation
events, two statuses around prompt building and invocation, the chunk
events in arrival order, one more status, then final, complete and
end. -/
lemma processCode_success_actions (env : Env) (body : List (String × JVal))
    (upstream : UpstreamBehavior) (rec : ApiKeyRecord) (cr : CountResult)
    (r' : ApiKeyRecord) (uak : Option String) (doc coerced : Json)
    (h1 : invalidStringField (bodyGet body "api_key") = false)
    (h2 : invalidModelField (bodyGet body "selectedModel") = false)
    (h3 : firstMissingField body ["projectType", "files", "projectLanguage", "packageJson"] = none)
    (h4 : findApiKeyRecord env.verify (trimStr (strOfJVal (bodyGet body "api_key")))
            env.table = some rec)
    (h5 : policyCheck rec.plan (strOfJVal (bodyGet body "selectedModel"))
            (bodyGet body "userApiKey") = none)
    (h6 : increment_api_count 3 env.dailyLimit env.today rec = (cr, r'))
    (h7 : cr.success = true)
    (h8 : jsTrimOptional (bodyGet body "userApiKey") = some uak)
    (hfiles : (!truthy (bodyGet body "files") || !isArrV (bodyGet body "files") ||
        arrLenV (bodyGet body "files") == 0) = false)
    (hpj : (!truthy (bodyGet body "packageJson") ||
        !typeofObject (bodyGet body "packageJson")) = false)
    (hai : callAIModel (strOfJVal (bodyGet body "selectedModel")) rec.plan uak upstream =
        (streamEvents upstream.chunks, .ok (accumulateChunks upstream.chunks)))
    (hparse : parseAIResponse (accumulateChunks upstream.chunks) = .ok doc)
    (hdoc : ensureFilesKey doc = .ok coerced) :
    (processCodeHandler env body upstream).1.actions =
      [.ev .connected, .ev (.status "Validating API key..."),
       .ev (.status "Checking usage limits..."), .dbIncrement rec.name,
       .ev (.status "Creating refactoring prompt..."), .buildPrompt,
       .ev (.status "Starting AI processing with streaming..."), .invokeModel]
      ++ streamEvents upstream.chunks
      ++ [.ev (.status "AI processing completed. Parsing response..."),
          .ev (.finalEv coerced),
          .ev (.complete "Processing completed successfully"), .ev .endEv] := by
  have hv := validate_passed_eq env body
    ["projectType", "files", "projectLanguage", "packageJson"] rec cr r' uak
    h1 h2 h3 h4 h5 h6 h7 h8
  unfold processCodeHandler
  rw [hv]
  simp only [processCodeAfterValidate, hfiles, hpj, Bool.false_eq_true, if_false,
    runPipeline, hai, hparse, hdoc]
  simp

/-- On every request whose body does not crash the pre-upgrade debug
logging, the first event written by `validateAndProcessRequest` is the
connected event. -/
lemma validate_head (env : Env) (body : List (String × JVal)) (rf : List String)
    (h0 : preUpgradeThrow (bodyGet body "userApiKey") = false) :
    (validateAndProcessRequest env body rf).1.head? = some (.ev .connected) := by
  simp only [validateAndProcessRequest]
  repeat' split
  all_goals simp_all [errEnd]

/-- A triple whose actions end in an error and the end event witnesses
the failure shape. -/
lemma ends_append_errEnd (X : List TraceAction) (m : String) (Y : ValidateOutcome)
    (T : List ApiKeyRecord) :
    ∃ pre msg, ((X ++ errEnd m, Y, T)).1 = pre ++ [.ev (.errorEv msg), .ev .endEv] :=
  ⟨X, m, by simp [errEnd]⟩

/-- Whenever validation fails on the stream, its actions end with an
error event immediately followed by the end event. -/
lemma validate_failed_ends (env : Env) (body : List (String × JVal)) (rf : List String) :
    (validateAndProcessRequest env body rf).2.1 = .failed →
    ∃ pre msg, (validateAndProcessRequest env body rf).1 =
      pre ++ [.ev (.errorEv msg), .ev .endEv] := by
  simp only [validateAndProcessRequest]
  repeat' split
  all_goals intro h
  all_goals first
    | (simp at h; done)
    | exact ends_append_errEnd _ _ _ _

/-- The head of an append is the head of a nonempty first part. -/
lemma head?_append_some {l l' : List TraceAction} {a : TraceAction}
    (h : l.head? = some a) : (l ++ l').head? = some a := by
  cases l with
  | nil => simp at h
  | cons b tl => simpa using h

/-- The properties of one streaming handler asserted by C9: stream
upgraded with status 200, first event connected, and stream-level
validation failures reported as an error event followed by end. -/
def SSEHandlerOK (rf : List String) (env : Env) (body : List (String × JVal))
    (resp : SSEResponse) : Prop :=
  resp.statusCode = 200 ∧
  resp.actions.head? = some (.ev .connected) ∧
  ((validateAndProcessRequest env body rf).2.1 = .failed →
    ∃ pre msg, resp.actions = pre ++ [.ev (.errorEv msg), .ev .endEv])

/-- The handler factors through its post-validation continuation. -/
lemma processCodeHandler_eq (env : Env) (body : List (String × JVal))
    (upstream : UpstreamBehavior) :
    processCodeHandler env body upstream =
      processCodeAfterValidate body upstream
        (validateAndProcessRequest env body
          ["projectType", "files", "projectLanguage", "packageJson"]).1
        (validateAndProcessRequest env body
          ["projectType", "files", "projectLanguage", "packageJson"]).2.1
        (validateAndProcessRequest env body
          ["projectType", "files", "projectLanguage", "packageJson"]).2.2 := rfl

/-- The generate-custom handler factors through its continuation. -/
lemma generateCustomHandler_eq (env : Env) (body : List (String × JVal))
    (upstream : UpstreamBehavior) :
    generateCustomHandler env body upstream =
      generateCustomAfterValidate body upstream
        (validateAndProcessRequest env body
          ["projectType", "projectLanguage", "userPrompt", "packageJson"]).1
        (validateAndProcessRequest env body
          ["projectType", "projectLanguage", "userPrompt", "packageJson"]).2.1
        (validateAndProcessRequest env body
          ["projectType", "projectLanguage", "userPrompt", "packageJson"]).2.2 := rfl

/-- The optimize-files handler factors through its continuation. -/
lemma optimizeFilesHandler_eq (env : Env) (body : List (String × JVal))
    (upstream : UpstreamBehavior) :
    optimizeFilesHandler env body upstream =
      optimizeFilesAfterValidate body upstream
        (validateAndProcessRequest env body
          ["projectType", "projectLanguage", "files"]).1
        (validateAndProcessRequest env body
          ["projectType", "projectLanguage", "files"]).2.1
        (validateAndProcessRequest env body
          ["projectType", "projectLanguage", "files"]).2.2 := rfl

/-- SSE facts about the process-code continuation: the status is always
200, the first action is inherited from validation, and on validation
failure the actions are exactly the validation actions. -/
lemma processCodeAfterValidate_sse (body : List (String × JVal))
    (upstream : UpstreamBehavior) (vActs : List TraceAction)
    (outcome : ValidateOutcome) (table' : List ApiKeyRecord)
    (hhead : vActs.head? = some (.ev .connected)) :
    (processCodeAfterValidate body upstream vActs outcome table').1.statusCode = 200 ∧
    (processCodeAfterValidate body upstream vActs outcome table').1.actions.head? =
      some (.ev .connected) ∧
    (outcome = .failed →
      (processCodeAfterValidate body upstream vActs outcome table').1.actions = vActs) := by
  cases outcome with
  | failed => exact ⟨rfl, hhead, fun _ => rfl⟩
  | threw m =>
    exact ⟨rfl, head?_append_some hhead, fun h => absurd h (by simp)⟩
  | passed d =>
    refine ⟨?_, ?_, fun h => absurd h (by simp)⟩
    · simp only [processCodeAfterValidate]
      repeat' split
      all_goals rfl
    · simp only [processCodeAfterValidate]
      split
      · exact head?_append_some hhead
      · split
        · exact head?_append_some hhead
        · obtain ⟨post, hpe, _⟩ := runPipeline_extends vActs d upstream
            "Creating refactoring prompt..." "Starting AI processing with streaming..."
            "AI processing completed. Parsing response..." "Processing completed successfully"
          rw [hpe]
          exact head?_append_some hhead

/-- SSE facts about the generate-custom continuation. -/
lemma generateCustomAfterValidate_sse (body : List (String × JVal))
    (upstream : UpstreamBehavior) (vActs : List TraceAction)
    (outcome : ValidateOutcome) (table' : List ApiKeyRecord)
    (hhead : vActs.head? = some (.ev .connected)) :
    (generateCustomAfterValidate body upstream vActs outcome table').1.statusCode = 200 ∧
    (generateCustomAfterValidate body upstream vActs outcome table').1.actions.head? =
      some (.ev .connected) ∧
    (outcome = .failed →
      (generateCustomAfterValidate body upstream vActs outcome table').1.actions = vActs) := by
  cases outcome with
  | failed => exact ⟨rfl, hhead, fun _ => rfl⟩
  | threw m =>
    exact ⟨rfl, head?_append_some hhead, fun h => absurd h (by simp)⟩
  | passed d =>
    refine ⟨?_, ?_, fun h => absurd h (by simp)⟩
    · simp only [generateCustomAfterValidate]
      repeat' split
      all_goals rfl
    · simp only [generateCustomAfterValidate]
      split
      · exact head?_append_some hhead
      · split
        · exact head?_append_some hhead
        · obtain ⟨post, hpe, _⟩ := runPipeline_extends vActs d upstream
            "Creating custom generation prompt..." "Starting AI processing with streaming..."
            "AI processing completed. Parsing response..." "Custom generation completed successfully"
          rw [hpe]
          exact head?_append_some hhead

/-- SSE facts about the optimize-files continuation. -/
lemma optimizeFilesAfterValidate_sse (body : List (String × JVal))
    (upstream : UpstreamBehavior) (vActs : List TraceAction)
    (outcome : ValidateOutcome) (table' : List ApiKeyRecord)
    (hhead : vActs.head? = some (.ev .connected)) :
    (optimizeFilesAfterValidate body upstream vActs outcome table').1.statusCode = 200 ∧
    (optimizeFilesAfterValidate body upstream vActs outcome table').1.actions.head? =
      some (.ev .connected) ∧
    (outcome = .failed →
      (optimizeFilesAfterValidate body upstream vActs outcome table').1.actions = vActs) := by
  cases outcome with
  | failed => exact ⟨rfl, hhead, fun _ => rfl⟩
  | threw m =>
    exact ⟨rfl, head?_append_some hhead, fun h => absurd h (by simp)⟩
  | passed d =>
    refine ⟨?_, ?_, fun h => absurd h (by simp)⟩
    · simp only [optimizeFilesAfterValidate]
      repeat' split
      all_goals rfl
    · simp only [optimizeFilesAfterValidate]
      split
      · exact head?_append_some hhead
      · obtain ⟨post, hpe, _⟩ := runPipeline_extends vActs d upstream
          "Creating optimization analysis..." "Starting AI optimization analysis with streaming..."
          "AI optimization completed. Parsing response..." "File optimization completed successfully"
        rw [hpe]
        exact head?_append_some hhead

/-- C9 counterexample: a body whose userApiKey is the number 123 is
truthy and has no substring method, so the debug logging at server.js
line 574 throws before `setupSSEHeaders` runs; the route catch then
writes the error and end events to the never-upgraded response, and the
first event of the stream is the error event, not connected. -/
theorem sse_connected_first_violated :
    (processCodeHandler envW
      [("api_key", .jstr "alice-key"), ("selectedModel", .jstr "gpt5-mini"),
       ("userApiKey", .jnum 123)] upFiles).1.actions =
      [.ev (.errorEv "userApiKey.substring is not a function"), .ev .endEv] ∧
    (processCodeHandler envW
      [("api_key", .jstr "alice-key"), ("selectedModel", .jstr "gpt5-mini"),
       ("userApiKey", .jnum 123)] upFiles).1.actions.head? ≠
      some (.ev .connected) := by
  refine ⟨rfl, ?_⟩
  intro h
  rw [show (processCodeHandler envW
      [("api_key", .jstr "alice-key"), ("selectedModel", .jstr "gpt5-mini"),
       ("userApiKey", .jnum 123)] upFiles).1.actions =
      [.ev (.errorEv "userApiKey.substring is not a function"), .ev .endEv] from rfl] at h
  simp at h

/-- C9 (amended): on every request whose body does not crash the
pre-upgrade debug logging — userApiKey absent, falsy or a string — each
of the three streaming endpoints upgrades the response to a 200-status
SSE stream whose first event is connected before any validation runs,
and reports every stream-level validation failure — including a missing
or malformed api_key or selectedModel — as an error event followed by
an end event, never as a non-200 synchronous response.  A truthy
non-string userApiKey instead throws in the debug logging before the
upgrade, and the stream then starts with the error event. -/
theorem streamingEndpoints_sse_upgrade (env : Env) (body : List (String × JVal))
    (upstream : UpstreamBehavior)
    (h0 : preUpgradeThrow (bodyGet body "userApiKey") = false) :
    ((processCodeHandler env body upstream).1.statusCode = 200 ∧
     (processCodeHandler env body upstream).1.actions.head? = some (.ev .connected) ∧
     ((validateAndProcessRequest env body
         ["projectType", "files", "projectLanguage", "packageJson"]).2.1 = .failed →
       ∃ pre msg, (processCodeHandler env body upstream).1.actions =
         pre ++ [.ev (.errorEv msg), .ev .endEv])) ∧
    ((generateCustomHandler env body upstream).1.statusCode = 200 ∧
     (generateCustomHandler env body upstream).1.actions.head? = some (.ev .connected) ∧
     ((validateAndProcessRequest env body
         ["projectType", "projectLanguage", "userPrompt", "packageJson"]).2.1 = .failed →
       ∃ pre msg, (generateCustomHandler env body upstream).1.actions =
         pre ++ [.ev (.errorEv msg), .ev .endEv])) ∧
    ((optimizeFilesHandler env body upstream).1.statusCode = 200 ∧
     (optimizeFilesHandler env body upstream).1.actions.head? = some (.ev .connected) ∧
     ((validateAndProcessRequest env body
         ["projectType", "projectLanguage", "files"]).2.1 = .failed →
       ∃ pre msg, (optimizeFilesHandler env body upstream).1.actions =
         pre ++ [.ev (.errorEv msg), .ev .endEv])) := by
  refine ⟨?_, ?_, ?_⟩
  · have hs := processCodeAfterValidate_sse body upstream
      (validateAndProcessRequest env body
        ["projectType", "files", "projectLanguage", "packageJson"]).1
      (validateAndProcessRequest env body
        ["projectType", "files", "projectLanguage", "packageJson"]).2.1
      (validateAndProcessRequest env body
        ["projectType", "files", "projectLanguage", "packageJson"]).2.2
      (validate_head env body _ h0)
    rw [processCodeHandler_eq]
    refine ⟨hs.1, hs.2.1, fun hf => ?_⟩
    rw [hs.2.2 hf]
    exact validate_failed_ends env body _ hf
  · have hs := generateCustomAfterValidate_sse body upstream
      (validateAndProcessRequest env body
        ["projectType", "projectLanguage", "userPrompt", "packageJson"]).1
      (validateAndProcessRequest env body
        ["projectType", "projectLanguage", "userPrompt", "packageJson"]).2.1
      (validateAndProcessRequest env body
        ["projectType", "projectLanguage", "userPrompt", "packageJson"]).2.2
      (validate_head env body _ h0)
    rw [generateCustomHandler_eq]
    refine ⟨hs.1, hs.2.1, fun hf => ?_⟩
    rw [hs.2.2 hf]
    exact validate_failed_ends env body _ hf
  · have hs := optimizeFilesAfterValidate_sse body upstream
      (validateAndProcessRequest env body
        ["projectType", "projectLanguage", "files"]).1
      (validateAndProcessRequest env body
        ["projectType", "projectLanguage", "files"]).2.1
      (validateAndProcessRequest env body
        ["projectType", "projectLanguage", "files"]).2.2
      (validate_head env body _ h0)
    rw [optimizeFilesHandler_eq]
    refine ⟨hs.1, hs.2.1, fun hf => ?_⟩
    rw [hs.2.2 hf]
    exact validate_failed_ends env body _ hf

/-- Witness for C9: a request with no api_key at all does not crash the
debug logging, fails validation, and still receives a 200 SSE stream
starting with connected and ending with error and end. -/
theorem streamingEndpoints_sse_upgrade_witness :
    preUpgradeThrow (bodyGet [] "userApiKey") = false ∧
    (validateAndProcessRequest envW []
      ["projectType", "files", "projectLanguage", "packageJson"]).2.1 = .failed ∧
    (processCodeHandler envW [] upFiles).1.statusCode = 200 ∧
    (processCodeHandler envW [] upFiles).1.actions.head? = some (.ev .connected) ∧
    (∃ pre msg, (processCodeHandler envW [] upFiles).1.actions =
      pre ++ [.ev (.errorEv msg), .ev .endEv]) := by
  have hfail : (validateAndProcessRequest envW []
      ["projectType", "files", "projectLanguage", "packageJson"]).2.1 = .failed := by decide
  have T := streamingEndpoints_sse_upgrade envW [] upFiles (by decide)
  exact ⟨by decide, hfail, T.1.1, T.1.2.1, T.1.2.2 hfail⟩

/-- Whatever happens after validation, the process-code continuation
returns the stored table it was given: nothing after the increment
writes the counter again. -/
lemma processCodeAfterValidate_table (body : List (String × JVal))
    (upstream : UpstreamBehavior) (vActs : List TraceAction)
    (outcome : ValidateOutcome) (table' : List ApiKeyRecord) :
    (processCodeAfterValidate body upstream vActs outcome table').2 = table' := by
  cases outcome
  all_goals simp only [processCodeAfterValidate]
  all_goals repeat' split
  all_goals rfl

/-- After a passed validation the process-code continuation only
appends increment-free actions. -/
lemma processCodeAfterValidate_passed_shape (body : List (String × JVal))
    (upstream : UpstreamBehavior) (vActs : List TraceAction) (d : ValidationData)
    (table' : List ApiKeyRecord) :
    ∃ post, (processCodeAfterValidate body upstream vActs (.passed d) table').1.actions =
        vActs ++ post ∧ countIncrements post = 0 := by
  simp only [processCodeAfterValidate]
  split
  · exact ⟨errEnd _, rfl, rfl⟩
  · split
    · exact ⟨errEnd _, rfl, rfl⟩
    · exact runPipeline_extends vActs d upstream _ _ _ _

/-- A successful increment stores the effective count plus one. -/
lemma increment_success_count (dailyLimit : Nat) (today : String)
    (rec : ApiKeyRecord) (cr : CountResult) (r' : ApiKeyRecord)
    (h6 : increment_api_count 3 dailyLimit today rec = (cr, r'))
    (h7 : cr.success = true) :
    r'.count = effectiveCount today rec + 1 := by
  unfold increment_api_count at h6
  unfold effectiveCount
  repeat' first
    | split at h6
    | simp only [] at h6
  all_goals injection h6 with hcrE hr'E
  all_goals subst hcrE
  all_goals subst hr'E
  all_goals first
    | (simp at h7; done)
    | simp_all

/-- C10: on a request that passes authentication, policy and quota, the
counter increment RPC runs exactly once, before prompt building and
model invocation; the stored table afterwards is the post-increment
one, with the effective count plus one, and this holds for every
upstream behaviour, so no error in the AI call or the extraction
refunds the increment. -/
theorem usageIncrement_once_no_refund (env : Env) (body : List (String × JVal))
    (upstream : UpstreamBehavior) (rec : ApiKeyRecord) (cr : CountResult)
    (r' : ApiKeyRecord) (uak : Option String)
    (h1 : invalidStringField (bodyGet body "api_key") = false)
    (h2 : invalidModelField (bodyGet body "selectedModel") = false)
    (h3 : firstMissingField body ["projectType", "files", "projectLanguage", "packageJson"] = none)
    (h4 : findApiKeyRecord env.verify (trimStr (strOfJVal (bodyGet body "api_key")))
            env.table = some rec)
    (h5 : policyCheck rec.plan (strOfJVal (bodyGet body "selectedModel"))
            (bodyGet body "userApiKey") = none)
    (h6 : increment_api_count 3 env.dailyLimit env.today rec = (cr, r'))
    (h7 : cr.success = true)
    (h8 : jsTrimOptional (bodyGet body "userApiKey") = some uak) :
    (∃ post, (processCodeHandler env body upstream).1.actions =
        [.ev .connected, .ev (.status "Validating API key..."),
         .ev (.status "Checking usage limits..."), .dbIncrement rec.name] ++ post ∧
      countIncrements post = 0) ∧
    countIncrements (processCodeHandler env body upstream).1.actions = 1 ∧
    (processCodeHandler env body upstream).2 = updateTable env.table r' ∧
    r'.count = effectiveCount env.today rec + 1 ∧
    TraceAction.buildPrompt ∉
      ([.ev .connected, .ev (.status "Validating API key..."),
        .ev (.status "Checking usage limits..."), .dbIncrement rec.name] : List TraceAction) ∧
    TraceAction.invokeModel ∉
      ([.ev .connected, .ev (.status "Validating API key..."),
        .ev (.status "Checking usage limits..."), .dbIncrement rec.name] : List TraceAction) := by
  have hv := validate_passed_eq env body
    ["projectType", "files", "projectLanguage", "packageJson"] rec cr r' uak
    h1 h2 h3 h4 h5 h6 h7 h8
  have hshape := processCodeAfterValidate_passed_shape body upstream
    [.ev .connected, .ev (.status "Validating API key..."),
     .ev (.status "Checking usage limits..."), .dbIncrement rec.name]
    { record := rec, countResult := cr
      selectedModel := strOfJVal (bodyGet body "selectedModel"), userApiKey := uak }
    (updateTable env.table r')
  obtain ⟨post, hpe, hcnt⟩ := hshape
  have hacts : (processCodeHandler env body upstream).1.actions =
      [.ev .connected, .ev (.status "Validating API key..."),
       .ev (.status "Checking usage limits..."), .dbIncrement rec.name] ++ post := by
    rw [processCodeHandler_eq, hv]
    exact hpe
  refine ⟨⟨post, hacts, hcnt⟩, ?_, ?_, ?_, by simp, by simp⟩
  · rw [hacts, countIncrements_append, hcnt]
    rfl
  · rw [processCodeHandler_eq, hv]
    exact processCodeAfterValidate_table body upstream _ _ _
  · exact increment_success_count env.dailyLimit env.today rec cr r' h6 h7

/-- Event tags distribute over append. -/
lemma etags_append (l1 l2 : List TraceAction) :
    etags (l1 ++ l2) = etags l1 ++ etags l2 := by
  simp [etags, eventsOf]

/-- Mapping chunk events tags each element with the chunk tag. -/
lemma etags_map_chunk :
    ∀ l : List String,
      etags (l.map (fun c => TraceAction.ev (Event.chunk c))) =
        l.map (fun _ => ETag.chunkT) := by
  intro l
  induction l with
  | nil => rfl
  | cons c tl ih =>
    simp only [List.map_cons]
    rw [show etags (TraceAction.ev (Event.chunk c) ::
          List.map (fun c => TraceAction.ev (Event.chunk c)) tl) =
        ETag.chunkT :: etags (List.map (fun c => TraceAction.ev (Event.chunk c)) tl) from rfl,
      ih]

/-- The tags of the chunk events are one chunk tag per truthy fragment. -/
lemma etags_streamEvents (chunks : List String) :
    etags (streamEvents chunks) =
      (chunks.filter (fun c => c ≠ "")).map (fun _ => ETag.chunkT) := by
  unfold streamEvents
  exact etags_map_chunk _

/-- C6 counterexample: a concrete fully successful run in which the
handler emits a status event between the last chunk and the final
event, so the observed type sequence is not of the claimed shape
connected, status*, chunk*, final, complete?, end. -/
theorem streamOrder_claimed_shape_violated :
    etags (processCodeHandler envW bodyPro upFiles).1.actions =
      [.connectedT, .statusT, .statusT, .statusT, .statusT, .chunkT,
       .statusT, .finalT, .completeT, .endT] ∧
    specSuccessShape (etags (processCodeHandler envW bodyPro upFiles).1.actions) = false :=
  ⟨by decide, by decide⟩

/-- C6 (amended): for every successful streaming request — one whose
parsed document the files coercion does not throw on; a null document
instead crashes the `.files` read and the run ends with error and end —
the event-type sequence is exactly connected, four statuses, the chunks
in provider arrival order, one further status (response parsing), then
final, complete and end — the final event still strictly after the last
chunk, but with one status event interleaved between the last chunk and
final. -/
theorem streamOrder_success_trace (env : Env) (body : List (String × JVal))
    (upstream : UpstreamBehavior) (rec : ApiKeyRecord) (cr : CountResult)
    (r' : ApiKeyRecord) (uak : Option String) (doc coerced : Json)
    (h1 : invalidStringField (bodyGet body "api_key") = false)
    (h2 : invalidModelField (bodyGet body "selectedModel") = false)
    (h3 : firstMissingField body ["projectType", "files", "projectLanguage", "packageJson"] = none)
    (h4 : findApiKeyRecord env.verify (trimStr (strOfJVal (bodyGet body "api_key")))
            env.table = some rec)
    (h5 : policyCheck rec.plan (strOfJVal (bodyGet body "selectedModel"))
            (bodyGet body "userApiKey") = none)
    (h6 : increment_api_count 3 env.dailyLimit env.today rec = (cr, r'))
    (h7 : cr.success = true)
    (h8 : jsTrimOptional (bodyGet body "userApiKey") = some uak)
    (hfiles : (!truthy (bodyGet body "files") || !isArrV (bodyGet body "files") ||
        arrLenV (bodyGet body "files") == 0) = false)
    (hpj : (!truthy (bodyGet body "packageJson") ||
        !typeofObject (bodyGet body "packageJson")) = false)
    (hai : callAIModel (strOfJVal (bodyGet body "selectedModel")) rec.plan uak upstream =
        (streamEvents upstream.chunks, .ok (accumulateChunks upstream.chunks)))
    (hparse : parseAIResponse (accumulateChunks upstream.chunks) = .ok doc)
    (hdoc : ensureFilesKey doc = .ok coerced) :
    etags (processCodeHandler env body upstream).1.actions =
      [.connectedT, .statusT, .statusT, .statusT, .statusT] ++
      (upstream.chunks.filter (fun c => c ≠ "")).map (fun _ => ETag.chunkT) ++
      [.statusT, .finalT, .completeT, .endT] := by
  rw [processCode_success_actions env body upstream rec cr r' uak doc coerced
    h1 h2 h3 h4 h5 h6 h7 h8 hfiles hpj hai hparse hdoc]
  rw [etags_append, etags_append, etags_streamEvents]
  rfl

/-- Witness for C6 at a concrete pro-plan request with one chunk. -/
theorem streamOrder_success_trace_witness :
    etags (processCodeHandler envW bodyPro upFiles).1.actions =
      [.connectedT, .statusT, .statusT, .statusT, .statusT, .chunkT,
       .statusT, .finalT, .completeT, .endT] := by
  have T := streamOrder_success_trace envW bodyPro upFiles aliceRecord
    { success := true, errorMsg := "", count := 1, limit := 100, remaining := 99 }
    { name := "alice", api_key := some (hashModel "alice-key"), count := 1,
      last_reset_date := "2026-10-12", plan := "pro" }
    none (.obj [("files", .arr [])]) (.obj [("files", .arr [])])
    rfl rfl rfl rfl rfl rfl rfl rfl rfl rfl rfl rfl rfl
  simpa using T

/-- Looking up a key right after setting it yields the set value. -/
lemma lookupKey_setKey (k : String) (v : Json) :
    ∀ kvs : List (String × Json), lookupKey k (setKey k v kvs) = some v := by
  intro kvs
  induction kvs with
  | nil => simp [setKey, lookupKey]
  | cons p rest ih =>
    obtain ⟨k', v'⟩ := p
    by_cases hk : k' = k
    · simp [setKey, lookupKey, hk]
    · simp [setKey, lookupKey, hk, ih]

/-- C7: when the parsed document lacks a files key, or holds a falsy or
non-array value under it, the pipeline overwrites it with an empty
array and the request still ends with a successful final event followed
by complete and end. -/
theorem filesKeyCoercion_success (env : Env) (body : List (String × JVal))
    (upstream : UpstreamBehavior) (rec : ApiKeyRecord) (cr : CountResult)
    (r' : ApiKeyRecord) (uak : Option String) (kvs : List (String × Json))
    (h1 : invalidStringField (bodyGet body "api_key") = false)
    (h2 : invalidModelField (bodyGet body "selectedModel") = false)
    (h3 : firstMissingField body ["projectType", "files", "projectLanguage", "packageJson"] = none)
    (h4 : findApiKeyRecord env.verify (trimStr (strOfJVal (bodyGet body "api_key")))
            env.table = some rec)
    (h5 : policyCheck rec.plan (strOfJVal (bodyGet body "selectedModel"))
            (bodyGet body "userApiKey") = none)
    (h6 : increment_api_count 3 env.dailyLimit env.today rec = (cr, r'))
    (h7 : cr.success = true)
    (h8 : jsTrimOptional (bodyGet body "userApiKey") = some uak)
    (hfiles : (!truthy (bodyGet body "files") || !isArrV (bodyGet body "files") ||
        arrLenV (bodyGet body "files") == 0) = false)
    (hpj : (!truthy (bodyGet body "packageJson") ||
        !typeofObject (bodyGet body "packageJson")) = false)
    (hai : callAIModel (strOfJVal (bodyGet body "selectedModel")) rec.plan uak upstream =
        (streamEvents upstream.chunks, .ok (accumulateChunks upstream.chunks)))
    (hparse : parseAIResponse (accumulateChunks upstream.chunks) = .ok (.obj kvs))
    (hbad : ∀ v, lookupKey "files" kvs = some v →
        (truthyJson v && isArrJson v) = false) :
    ensureFilesKey (.obj kvs) = .ok (.obj (setKey "files" (.arr []) kvs)) ∧
    lookupKey "files" (setKey "files" (.arr []) kvs) = some (.arr []) ∧
    (processCodeHandler env body upstream).1.actions =
      [.ev .connected, .ev (.status "Validating API key..."),
       .ev (.status "Checking usage limits..."), .dbIncrement rec.name,
       .ev (.status "Creating refactoring prompt..."), .buildPrompt,
       .ev (.status "Starting AI processing with streaming..."), .invokeModel]
      ++ streamEvents upstream.chunks
      ++ [.ev (.status "AI processing completed. Parsing response..."),
          .ev (.finalEv (.obj (setKey "files" (.arr []) kvs))),
          .ev (.complete "Processing completed successfully"), .ev .endEv] := by
  have hens : ensureFilesKey (.obj kvs) = .ok (.obj (setKey "files" (.arr []) kvs)) := by
    simp only [ensureFilesKey]
    cases hl : lookupKey "files" kvs with
    | none => rfl
    | some v =>
      have hb := hbad v hl
      have hb' : ¬(truthyJson v = true ∧ isArrJson v = true) := by
        rintro ⟨ht, ha⟩
        rw [ht, ha] at hb
        simp at hb
      simp [hb']
  refine ⟨hens, lookupKey_setKey "files" (.arr []) kvs, ?_⟩
  rw [processCode_success_actions env body upstream rec cr r' uak (.obj kvs)
    (.obj (setKey "files" (.arr []) kvs))
    h1 h2 h3 h4 h5 h6 h7 h8 hfiles hpj hai hparse hens]

/-- Witness for C7 at a parsed document without a files key. -/
theorem filesKeyCoercion_success_witness :
    parseAIResponse (accumulateChunks upNoFiles.chunks) =
      .ok (.obj [("a", .num "1")]) ∧
    ensureFilesKey (.obj [("a", .num "1")]) =
      .ok (.obj [("a", .num "1"), ("files", .arr [])]) ∧
    lookupKey "files" [("a", .num "1"), ("files", .arr [])] = some (.arr []) ∧
    (processCodeHandler envW bodyPro upNoFiles).1.actions =
      [.ev .connected, .ev (.status "Validating API key..."),
       .ev (.status "Checking usage limits..."), .dbIncrement "alice",
       .ev (.status "Creating refactoring prompt..."), .buildPrompt,
       .ev (.status "Starting AI processing with streaming..."), .invokeModel,
       .ev (.chunk "\x7b\"a\":1\x7d"),
       .ev (.status "AI processing completed. Parsing response..."),
       .ev (.finalEv (.obj [("a", .num "1"), ("files", .arr [])])),
       .ev (.complete "Processing completed successfully"), .ev .endEv] := by
  have T := filesKeyCoercion_success envW bodyPro upNoFiles aliceRecord
    { success := true, errorMsg := "", count := 1, limit := 100, remaining := 99 }
    { name := "alice", api_key := some (hashModel "alice-key"), count := 1,
      last_reset_date := "2026-10-12", plan := "pro" }
    none [("a", .num "1")]
    rfl rfl rfl rfl rfl rfl rfl rfl rfl rfl rfl rfl
    (by
      intro v hv
      rw [show lookupKey "files" [("a", Json.num "1")] = none from rfl] at hv
      exact Option.noConfusion hv)
  exact ⟨rfl, T.1, T.2.1, by simpa using T.2.2⟩

/-- Witness for C10: a concrete passing request increments once whether
the upstream call succeeds or fails mid-stream, and the stored table
after the failing run equals the one after the successful run. -/
theorem usageIncrement_once_no_refund_witness :
    countIncrements (processCodeHandler envW bodyPro upFiles).1.actions = 1 ∧
    countIncrements (processCodeHandler envW bodyPro upFailing).1.actions = 1 ∧
    (processCodeHandler envW bodyPro upFailing).2 =
      (processCodeHandler envW bodyPro upFiles).2 := by
  have T1 := usageIncrement_once_no_refund envW bodyPro upFiles aliceRecord
    { success := true, errorMsg := "", count := 1, limit := 100, remaining := 99 }
    { name := "alice", api_key := some (hashModel "alice-key"), count := 1,
      last_reset_date := "2026-10-12", plan := "pro" }
    none rfl rfl rfl rfl rfl rfl rfl rfl
  have T2 := usageIncrement_once_no_refund envW bodyPro upFailing aliceRecord
    { success := true, errorMsg := "", count := 1, limit := 100, remaining := 99 }
    { name := "alice", api_key := some (hashModel "alice-key"), count := 1,
      last_reset_date := "2026-10-12", plan := "pro" }
    none rfl rfl rfl rfl rfl rfl rfl rfl
  exact ⟨T1.2.1, T2.2.1, T2.2.2.1.trans T1.2.2.1.symm⟩
